import Mathlib

/-!
Splash screen WebSocket client (`src/launcher/splash/static/splash.js`)

A shallow embedding of the `SplashClient` class: its fields, the page elements it
writes to, the timers it schedules and the console lines it prints are gathered in one
record, and every method becomes a function on that record.

Conventions of the embedding.

* JavaScript numbers that come from the wire are integer valued (the documented shapes
  of `total_phases`, `phase_num`, `duration_ms`, `redirect_delay_ms`), of magnitude at
  most `2^53`, so each is exactly a binary64 value.  Arithmetic on them is the IEEE-754
  binary64 arithmetic of the language, computed here exactly on integers.
* A field of an inbound object is either absent (`none`, the JavaScript `undefined`) or
  present with its documented type.
* A page text field holds the value the script last wrote to it; a style field holds the
  last value the page accepted (a width that is not valid is ignored by the page).
* `connect()` only creates the socket and installs the four callbacks, and
  `setupRetryButton()` only installs a click listener that reloads the page; neither
  writes a field of the client, so the callbacks themselves are what is modelled.
-/

set_option autoImplicit false

namespace Splash

/-! ## Numbers -/

/-- A JavaScript number value.  `finite neg mant exp` is `(-1)^neg * mant * 2^exp`. -/
inductive JSNumber where
  | nan
  | posInf
  | negInf
  | finite (neg : Bool) (mant : Nat) (exp : Int)
  deriving DecidableEq, Repr

/-- Result of `Math.round`: a not-a-number, an infinity, or an integer (the two zeros are
not told apart: both print as `0`). -/
inductive Rounded where
  | nan
  | posInf
  | negInf
  | int (z : Int)
  deriving DecidableEq, Repr

/-- Floor of `n * 2^(-e) / d` (for `d > 0`), the integer part of the quotient `n / d`
scaled so that its unit is `2^e`. -/
def scaledQuot (n d : Nat) (e : Int) : Nat :=
  if 0 ≤ e then n / (d * 2 ^ e.toNat) else (n * 2 ^ (-e).toNat) / d

/-- Remainder that goes with `scaledQuot`, together with the divisor it is taken by. -/
def scaledRem (n d : Nat) (e : Int) : Nat × Nat :=
  if 0 ≤ e then (n % (d * 2 ^ e.toNat), d * 2 ^ e.toNat)
  else ((n * 2 ^ (-e).toNat) % d, d)

/-- Number of halvings that bring `n` below 2, at most `fuel` of them. -/
def halvings : Nat → Nat → Nat
  | 0, _ => 0
  | fuel + 1, n => if n < 2 then 0 else halvings fuel (n / 2) + 1

/-- The integer part of the base-2 logarithm of `n` (and 0 for `n = 0`). -/
def floorLog2 (n : Nat) : Nat := halvings n n

/-- Exponent of the unit in the last place of the binary64 value nearest to `n / d`
(`n, d > 0`): the `e` with `2^52 ≤ n / d / 2^e < 2^53`. -/
def ulpExp (n d : Nat) : Int :=
  let e1 : Int := (floorLog2 n : Int) - (floorLog2 d : Int) - 52
  if scaledQuot n d e1 < 2 ^ 52 then e1 - 1 else e1

/-- The positive rational `n / d` rounded to binary64, nearest with ties to even, as a
significand and an exponent.  (Normal range only: no overflow, no subnormals, which is
where quotients and small multiples of integers up to `2^53` live.) -/
def roundBinary64 (n d : Nat) : Nat × Int :=
  let e := ulpExp n d
  let q := scaledQuot n d e
  let r := scaledRem n d e
  if r.2 < 2 * r.1 ∨ (2 * r.1 = r.2 ∧ q % 2 = 1) then (q + 1, e) else (q, e)

/-- The JavaScript quotient `a / b` of a possibly `undefined` integer by an integer. -/
def jsDiv (a : Option Int) (b : Int) : JSNumber :=
  match a with
  | none => .nan
  | some p =>
    if b = 0 then
      (if p = 0 then .nan else if 0 < p then .posInf else .negInf)
    else if p = 0 then .finite (decide (b < 0)) 0 0
    else
      let r := roundBinary64 p.natAbs b.natAbs
      .finite (decide (p < 0) != decide (b < 0)) r.1 r.2

/-- The JavaScript product `x * k` of a number by a positive integer constant. -/
def jsMulConst (x : JSNumber) (k : Nat) : JSNumber :=
  match x with
  | .nan => .nan
  | .posInf => .posInf
  | .negInf => .negInf
  | .finite neg m e =>
    if m = 0 then .finite neg 0 0
    else
      let r := if 0 ≤ e then roundBinary64 (k * m * 2 ^ e.toNat) 1
               else roundBinary64 (k * m) (2 ^ (-e).toNat)
      .finite neg r.1 r.2

/-- `Math.round`: the nearest integer, ties toward `+∞`, that is `⌊x + 1/2⌋`. -/
def mathRound (x : JSNumber) : Rounded :=
  match x with
  | .nan => .nan
  | .posInf => .posInf
  | .negInf => .negInf
  | .finite neg m e =>
    if 0 ≤ e then .int ((if neg then -1 else 1) * ((m : Int) * 2 ^ e.toNat))
    else
      let d : Int := 2 ^ (-e).toNat
      .int ((2 * ((if neg then -1 else 1) * (m : Int)) + d) / (2 * d))

/-- The binary64 value nearest to the natural number `n`, ties to even. -/
def nearestDouble (n : Nat) : Nat :=
  if n = 0 then 0
  else
    let r := roundBinary64 n 1
    if 0 ≤ r.2 then r.1 * 2 ^ r.2.toNat else r.1 / 2 ^ (-r.2).toNat

/-- Among the two multiples of `10^j` that surround `v`, the one that reads back as the
double `v`; when both do, the closer to `v`, and on a tie the one whose digits before
the `j` zeros form an even number. -/
def shortestAt (v j : Nat) : Option Nat :=
  let lo := v / 10 ^ j * 10 ^ j
  let hi := lo + 10 ^ j
  let okLo := decide (0 < lo) && decide (nearestDouble lo = v)
  let okHi := decide (nearestDouble hi = v)
  if okLo && okHi then
    if v - lo < hi - v then some lo
    else if hi - v < v - lo then some hi
    else if lo / 10 ^ j % 2 = 0 then some lo else some hi
  else if okLo then some lo
  else if okHi then some hi
  else none

/-- The search for the decimal with the fewest significant digits that reads back as `v`:
the most trailing zeros first, `j` of them at most. -/
def shortestFrom (v : Nat) : Nat → Nat
  | 0 => v
  | j + 1 =>
    match shortestAt v (j + 1) with
    | some c => c
    | none => shortestFrom v j

/-- The natural number whose decimal digits JavaScript prints for the integer-valued
double `v`: the one with the fewest significant digits among those that read back as
`v` (it is `v` itself up to `2^53`). -/
def shortestDecimal (v : Nat) : Nat := shortestFrom v (toString v).length

/-- Scientific form of a number of 22 digits or more: the significant digits with a point
after the first, then the exponent. -/
def exponentForm (c : Nat) : String :=
  let digits := (toString c).toList
  let significant := (digits.reverse.dropWhile fun d => d = '0').reverse
  let mantissa := match significant with
    | [] => "0"
    | [d] => String.mk [d]
    | d :: rest => String.mk (d :: '.' :: rest)
  mantissa ++ "e+" ++ toString (digits.length - 1)

/-- `Number::toString` of a non-negative integer-valued double. -/
def natToJS (v : Nat) : String :=
  let c := shortestDecimal v
  if c < 10 ^ 21 then toString c else exponentForm c

/-- String conversion of a rounded number inside a template literal. -/
def Rounded.toStr : Rounded → String
  | .nan => "NaN"
  | .posInf => "Infinity"
  | .negInf => "-Infinity"
  | .int z => (if z < 0 then "-" else "") ++ natToJS z.natAbs

/-- Whether `percent%` is a width the page accepts.  The style setter ignores a value
that is not a valid width: a negative percentage, `NaN%`, `Infinity%` or `-Infinity%`. -/
def Rounded.validWidth : Rounded → Bool
  | .int z => decide (0 ≤ z)
  | _ => false

/-- String conversion of a possibly `undefined` integer inside a template literal. -/
def numStr : Option Int → String
  | none => "undefined"
  | some z => toString z

/-- String conversion of a possibly `undefined` string inside a template literal. -/
def jsStr : Option String → String
  | none => "undefined"
  | some s => s

/-- Decimal digits of `n` with two digits after the point (`n` counts hundredths). -/
def hundredths (n : Nat) : String :=
  let frac := n % 100
  toString (n / 100) ++ "." ++ (if frac < 10 then "0" else "") ++ toString frac

/-- `Number.prototype.toFixed(2)` (for magnitudes below `10^21`): the decimal with two
fraction digits nearest to the exact value, ties to the larger magnitude. -/
def toFixed2 (x : JSNumber) : String :=
  match x with
  | .nan => "NaN"
  | .posInf => "Infinity"
  | .negInf => "-Infinity"
  | .finite neg m e =>
    let n : Nat :=
      if 0 ≤ e then 100 * m * 2 ^ e.toNat
      else (2 * (100 * m) + 2 ^ (-e).toNat) / (2 * 2 ^ (-e).toNat)
    (if neg ∧ m ≠ 0 then "-" else "") ++ hundredths n

/-! ## Strings -/

/-- The characters of the path suffix the success handler strips. -/
def presentationPath : List Char := "/presentation".toList

/-- Leftmost match of the regular expression `/\/presentation\/?$/` replaced by the empty
string: scanning from the left, the first position whose whole remainder is
`/presentation` or `/presentation/` is where the string is cut. -/
def replacePresentation : List Char → List Char
  | [] => []
  | c :: cs =>
    if c :: cs = presentationPath ∨ c :: cs = presentationPath ++ ['/'] then []
    else c :: replacePresentation cs

/-- The expression `url.replace(/\/presentation\/?$/, '')`. -/
def stripPresentation (url : String) : String :=
  String.mk (replacePresentation url.toList)

/-- The value a text node shows after `textContent = v`: `undefined` and `null` are
written as the empty string. -/
def domText : Option String → String
  | none => ""
  | some s => s

/-! ## Inbound messages -/

/-- The `data` of an envelope, when it is neither absent nor `null`, read through the
fields the handlers look at.  Every field is optional; `none` is `undefined`.  A `data`
that is a number, a string, a boolean or an array has none of these fields. -/
structure Data where
  message : Option String := none
  total_phases : Option Int := none
  phase_num : Option Int := none
  title : Option String := none
  duration_ms : Option Int := none
  level : Option String := none
  url : Option String := none
  redirect_delay_ms : Option Int := none
  fatal : Option Bool := none
  deriving DecidableEq, Repr

/-- What `JSON.parse` hands to `handleEvent`: the value `null`, or any other value, seen
through its `type` and its `data`.  A `type` of `none` is an absent one.  A `data` of
`none` is an absent or `null` one, on which every property read throws; any other `data`
is a `some`.  A value that is not an object (a number, a string, a boolean, an array) has
neither field. -/
inductive Json where
  | null
  | envelope (type : Option String) (data : Option Data)
  deriving DecidableEq, Repr

/-- An inbound frame, seen through `JSON.parse`: text that does not parse, or the parsed
value. -/
inductive Frame where
  | invalid
  | value (v : Json)
  deriving DecidableEq, Repr

/-- Exceptions raised inside the handlers. -/
inductive JSError where
  | syntaxError
  | typeError
  deriving DecidableEq, Repr

/-- Name of an exception, as the console shows it. -/
def JSError.name : JSError → String
  | .syntaxError => "SyntaxError"
  | .typeError => "TypeError"

/-! ## SplashClient state -/

/-- A child of the log panel. -/
structure LogEntry where
  className : String
  textContent : String
  deriving DecidableEq, Repr

/-- A pending `setTimeout`. -/
inductive Timer where
  | reconnect (delay : Nat)
  | pulse (delay : Nat)
  | redirect (url : String) (delay : Int)
  deriving DecidableEq, Repr

/-- Severity of a console line. -/
inductive ConsoleLevel where
  | log
  | warn
  | error
  deriving DecidableEq, Repr

/-- A line printed on the console. -/
structure ConsoleEntry where
  level : ConsoleLevel
  text : String
  deriving DecidableEq, Repr

/-- The fields of the class `SplashClient`, the page elements it writes to, the timers it
has scheduled and its console output.  The elements the constructor looks up and the
`.phase-display` element are taken to exist; the two links of the success panel, which
`showSuccess` tests for, are `none` when the page has no such element.  `timers` lists
every `setTimeout` made so far, oldest first. -/
structure SplashClient where
  totalPhases : Int
  currentPhase : Option Int
  logCount : Nat
  reconnectAttempts : Nat
  maxReconnectAttempts : Nat
  phaseNumText : String
  phaseTitleText : String
  phaseNumAnimation : String
  progressBarWidth : String
  progressPercentText : String
  progressPhaseText : String
  logOutput : List LogEntry
  logsCountText : String
  successBoxHidden : Bool
  dashboardUrlText : String
  errorBoxHidden : Bool
  errorMessageText : String
  btnPresentation : Option String
  btnModule : Option String
  phaseDisplayAnimation : String
  timers : List Timer
  console : List ConsoleEntry
  deriving DecidableEq, Repr

/-- Modelled from the spec: the page markup is not among the sources.  The log panel
starts empty, the success and error panels start hidden (they are "revealed" later), the
two action links of the success panel exist, and the texts start empty.  The fields of
the class are those the constructor sets. -/
def SplashClient.fresh : SplashClient where
  totalPhases := 8
  currentPhase := some 0
  logCount := 0
  reconnectAttempts := 0
  maxReconnectAttempts := 5
  phaseNumText := ""
  phaseTitleText := ""
  phaseNumAnimation := ""
  progressBarWidth := ""
  progressPercentText := ""
  progressPhaseText := ""
  logOutput := []
  logsCountText := ""
  successBoxHidden := true
  dashboardUrlText := ""
  errorBoxHidden := true
  errorMessageText := ""
  btnPresentation := some ""
  btnModule := some ""
  phaseDisplayAnimation := ""
  timers := []
  console := []

/-- Outcome of running a handler: the client at normal return, or the exception thrown
with the client as it stood at the throw. -/
abbrev Exec := Except (JSError × SplashClient) SplashClient

/-- Append a line to the console. -/
def SplashClient.print (c : SplashClient) (level : ConsoleLevel) (text : String) : SplashClient :=
  { c with console := c.console ++ [⟨level, text⟩] }

/-! ## Methods -/

/-- The loop `while (children.length > maxLogs) removeChild(firstChild)`. -/
def evict (maxLogs : Nat) : List LogEntry → List LogEntry
  | [] => []
  | e :: es => if maxLogs < (e :: es).length then evict maxLogs es else e :: es

/-- The element `addLog` builds from `data`: the level defaults to `INFO`. -/
def logEntryOf (d : Data) : LogEntry :=
  let level := match d.level with
    | none => "INFO"
    | some l => l
  ⟨"log-entry " ++ level, domText d.message⟩

/-- The method `addLog(data)`. -/
def addLog (c : SplashClient) (data : Option Data) : Exec :=
  match data with
  | none => .error (.typeError, c)
  | some d =>
    let entry := logEntryOf d
    let c1 := { c with logOutput := c.logOutput ++ [entry] }
    let c2 := { c1 with logCount := c1.logCount + 1 }
    let c3 := { c2 with logsCountText := toString c2.logCount ++ " messages" }
    let maxLogs := 100
    .ok { c3 with logOutput := evict maxLogs c3.logOutput }

/-- The method `updateProgress()`. -/
def updateProgress (c : SplashClient) : SplashClient :=
  let percent := mathRound (jsMulConst (jsDiv c.currentPhase c.totalPhases) 100)
  { c with
    progressBarWidth :=
      if percent.validWidth then percent.toStr ++ "%" else c.progressBarWidth
    progressPercentText := percent.toStr ++ "%"
    progressPhaseText :=
      "Phase " ++ numStr c.currentPhase ++ "/" ++ toString c.totalPhases }

/-- The method `updatePhase(data)`. -/
def updatePhase (c : SplashClient) (data : Option Data) : Exec :=
  match data with
  | none => .error (.typeError, c)
  | some d =>
    let c1 := { c with currentPhase := d.phase_num }
    let c2 := { c1 with
      phaseNumText := "PHASE " ++ numStr d.phase_num
      phaseTitleText := domText d.title }
    let c3 := updateProgress c2
    .ok { c3 with phaseNumAnimation := "none", timers := c3.timers ++ [.pulse 10] }

/-- The method `completePhase(data)`. -/
def completePhase (c : SplashClient) (data : Option Data) : Exec :=
  match data with
  | none => .error (.typeError, c)
  | some d =>
    let durationSec := toFixed2 (jsDiv d.duration_ms 1000)
    addLog c (some
      { level := some "SUCCESS"
        message := some ("✓ Phase " ++ numStr d.phase_num ++ " completed in "
          ++ durationSec ++ "s") })

/-- The method `showSuccess(data)`. -/
def showSuccess (c : SplashClient) (data : Option Data) : Exec :=
  match data with
  | none => .error (.typeError, c)
  | some d =>
    let redirect_delay_ms : Int := match d.redirect_delay_ms with
      | none => 3000
      | some ms => ms
    let c1 := { c with successBoxHidden := false, dashboardUrlText := domText d.url }
    let c2 := updateProgress { c1 with currentPhase := some c1.totalPhases }
    match d.url with
    | none => .error (.typeError, c2)
    | some url =>
      let baseUrl := stripPresentation url
      let c3 := { c2 with
        btnPresentation := c2.btnPresentation.map fun _ => baseUrl ++ "/presentation" }
      let c4 := { c3 with
        btnModule := c3.btnModule.map fun _ =>
          baseUrl ++ "/presentation/module_1_fundamentals/0" }
      .ok { c4 with timers := c4.timers ++ [.redirect url redirect_delay_ms] }

/-- The method `showError(message, fatal = false)`. -/
def showError (c : SplashClient) (message : Option String) (fatal : Option Bool) : Exec := do
  let c1 := { c with errorBoxHidden := false, errorMessageText := domText message }
  let c2 ← addLog c1 (some
    { level := some "ERROR", message := some ("✗ ERROR: " ++ jsStr message) })
  if fatal = some true then pure { c2 with phaseDisplayAnimation := "none" } else pure c2

/-- The method `handleDisconnect()`. -/
def handleDisconnect (c : SplashClient) : Exec :=
  if c.reconnectAttempts < c.maxReconnectAttempts then
    let c1 := { c with reconnectAttempts := c.reconnectAttempts + 1 }
    let delay := min (1000 * 2 ^ c1.reconnectAttempts) 10000
    let c2 := c1.print .log
      ("Reconnecting in " ++ toString delay ++ "ms (attempt "
        ++ toString c1.reconnectAttempts ++ ")")
    .ok { c2 with timers := c2.timers ++ [.reconnect delay] }
  else
    showError c (some "Connection lost. Please refresh the page.") none

/-- The method `handleEvent(event)`. -/
def handleEvent (c : SplashClient) (event : Json) : Exec :=
  match event with
  | .null => .error (.typeError, c)
  | .envelope type data =>
    if type = some "connected" then
      match data with
      | none => .error (.typeError, c)
      | some d => .ok (c.print .log ("Connected: " ++ jsStr d.message))
    else if type = some "config" then
      match data with
      | none => .error (.typeError, c)
      | some d =>
        match d.total_phases with
        | none => .ok c
        | some t =>
          if t ≠ 0 then
            let c1 := { c with totalPhases := t }
            .ok (c1.print .log ("Total phases configured: " ++ toString c1.totalPhases))
          else .ok c
    else if type = some "phase_start" then updatePhase c data
    else if type = some "phase_complete" then completePhase c data
    else if type = some "log" then addLog c data
    else if type = some "dashboard_ready" then showSuccess c data
    else if type = some "error" then
      match data with
      | none => .error (.typeError, c)
      | some d => showError c d.message d.fatal
    else .ok (c.print .warn ("Unknown event type: " ++ jsStr type))

/-- The handler `ws.onopen`. -/
def onopen (c : SplashClient) : Exec :=
  let c1 := c.print .log "WebSocket connected"
  .ok { c1 with reconnectAttempts := 0 }

/-- The handler `ws.onmessage`, given the frame as `JSON.parse` sees it. -/
def onmessage (c : SplashClient) (frame : Frame) : Exec :=
  let body : Exec := match frame with
    | .invalid => .error (.syntaxError, c)
    | .value data => handleEvent c data
  match body with
  | .ok c1 => .ok c1
  | .error (error, c1) => .ok (c1.print .error ("Failed to parse message: " ++ error.name))

/-- The handler `ws.onerror`. -/
def onerror (c : SplashClient) : Exec :=
  .ok (c.print .error "WebSocket error:")

/-- The handler `ws.onclose`. -/
def onclose (c : SplashClient) : Exec :=
  handleDisconnect (c.print .log "WebSocket disconnected")

/-! ## The event loop -/

/-- The client a handler leaves behind, whether it returned or threw. -/
def Exec.client : Exec → SplashClient
  | .ok c => c
  | .error (_, c) => c

/-- What the page can receive: the four socket callbacks and the firing of a timer. -/
inductive Signal where
  | wsOpen
  | wsMessage (frame : Frame)
  | wsError
  | wsClose
  | timeout (t : Timer)
  deriving DecidableEq, Repr

/-- The callback of a timer.  A reconnect timer calls `connect()`, which installs a new
socket and writes no field of the client; a pulse timer restores the animation of the
phase number; a redirect timer navigates away, after which nothing more is handled. -/
def fire (c : SplashClient) : Timer → Exec
  | .reconnect _ => .ok c
  | .pulse _ => .ok { c with phaseNumAnimation := "pulse 2s ease-in-out infinite" }
  | .redirect _ _ => .ok c

/-- One turn of the event loop. -/
def step (c : SplashClient) : Signal → Exec
  | .wsOpen => onopen c
  | .wsMessage frame => onmessage c frame
  | .wsError => onerror c
  | .wsClose => onclose c
  | .timeout t => fire c t

/-- The event loop: signals are handled one after the other, each to completion; an
exception that escapes a handler leaves the client as it stood. -/
def run (c : SplashClient) (signals : List Signal) : SplashClient :=
  signals.foldl (fun c s => (step c s).client) c

/-- Successive calls `addLog(d)` for the `d` of a list, in order. -/
def addLogs (c : SplashClient) (ds : List Data) : Exec :=
  ds.foldlM (fun c d => addLog c (some d)) c

/-- Number of reconnections among scheduled timers. -/
def reconnects (ts : List Timer) : Nat :=
  (ts.filter fun t => match t with
    | .reconnect _ => true
    | _ => false).length

/-- The last `n` elements of a list. -/
def lastN (n : Nat) (l : List LogEntry) : List LogEntry := l.drop (l.length - n)

/-- The 150 entries whose messages are the numbers 1 to 150. -/
def numberedLogs : List Data :=
  (List.range 150).map fun i => { message := some (toString (i + 1)) }

/-- The message of the error shown when reconnections are exhausted. -/
def connectionLost : String := "Connection lost. Please refresh the page."

/-- The client after `n` further `close` events in a row. -/
def afterCloses (c : SplashClient) (n : Nat) : SplashClient := run c (List.replicate n .wsClose)

/-- The part of the client that message handling never writes, and the facts it keeps. -/
def Untouched (c c1 : SplashClient) : Prop :=
  c1.reconnectAttempts = c.reconnectAttempts ∧
  c1.maxReconnectAttempts = c.maxReconnectAttempts ∧
  reconnects c1.timers = reconnects c.timers ∧
  c1.btnPresentation.isSome = c.btnPresentation.isSome ∧
  c1.btnModule.isSome = c.btnModule.isSome ∧
  (c.totalPhases ≠ 0 → c1.totalPhases ≠ 0)

/-- What every reachable client satisfies. -/
def Invariant (c : SplashClient) : Prop :=
  c.reconnectAttempts ≤ 5 ∧ c.maxReconnectAttempts = 5 ∧ c.totalPhases ≠ 0 ∧
  c.btnPresentation.isSome = true ∧ c.btnModule.isSome = true

/-- Reconnections still allowed plus reconnections already scheduled. -/
def budget (c : SplashClient) : Nat :=
  reconnects c.timers + (c.maxReconnectAttempts - c.reconnectAttempts)


/-- The event types `handleEvent` has a case for. -/
def knownTypes : List String :=
  ["connected", "config", "phase_start", "phase_complete", "log", "dashboard_ready", "error"]

/-- Whether a parsed value is a well-formed envelope for its type, after the shapes the
specification lists for the inbound transport: an object with a `type` and a `data`
object holding the required fields of that type (`message` for `connected`, `log` and
`error`; `phase_num` and `title` for `phase_start`; `phase_num` and `duration_ms` for
`phase_complete`; `url` for `dashboard_ready`; none for `config` and for the types that
are not recognised). -/
def wellFormed : Json → Bool
  | .null => false
  | .envelope _ none => false
  | .envelope type (some d) =>
    if type = some "connected" then d.message.isSome
    else if type = some "config" then true
    else if type = some "phase_start" then d.phase_num.isSome && d.title.isSome
    else if type = some "phase_complete" then d.phase_num.isSome && d.duration_ms.isSome
    else if type = some "log" then d.message.isSome
    else if type = some "dashboard_ready" then d.url.isSome
    else if type = some "error" then d.message.isSome
    else type.isSome

/-- A malformed payload: text that is not valid JSON, or JSON that is not a well-formed
envelope. -/
def malformed : Frame → Bool
  | .invalid => true
  | .value v => !wellFormed v

/-- The frames the handlers act upon: an envelope of type `phase_start`,
`phase_complete`, `log`, `dashboard_ready` or `error` whose `data` is neither absent nor
`null`, and a `config` envelope whose `data` carries a non-zero `total_phases`. -/
def actedUpon : Frame → Bool
  | .value (.envelope type (some d)) =>
    if type = some "config" then
      match d.total_phases with
      | some t => decide (t ≠ 0)
      | none => false
    else
      decide (type = some "phase_start") || decide (type = some "phase_complete") ||
        decide (type = some "log") || decide (type = some "dashboard_ready") ||
        decide (type = some "error")
  | _ => false

/-- The base the specification derives from a success `url`: the `url` without its
trailing `/presentation/` or `/presentation` when it ends with either, the `url` itself
otherwise. -/
def baseOf (url : String) : String :=
  if (presentationPath ++ ['/']).isSuffixOf url.toList then
    String.mk (url.toList.take (url.toList.length - 14))
  else if presentationPath.isSuffixOf url.toList then
    String.mk (url.toList.take (url.toList.length - 13))
  else url

/-- The total in force after a signal, as the code keeps it: a `config` message that
supplies a non-zero `total_phases` replaces it, nothing else does. -/
def nextTotal (t : Int) : Signal → Int
  | .wsMessage (.value (.envelope type (some d))) =>
    if type = some "config" then
      match d.total_phases with
      | some v => if v ≠ 0 then v else t
      | none => t
    else t
  | _ => t

/-- The value of the most recent `config` event that supplied a non-zero `total_phases`,
or the default 8 if none did. -/
def configuredTotal (signals : List Signal) : Int := signals.foldl nextTotal 8

/-- The total after a signal as the claim words it: any `config` message that supplies
`total_phases` replaces it. -/
def nextSupplied (t : Int) : Signal → Int
  | .wsMessage (.value (.envelope type (some d))) =>
    if type = some "config" then
      match d.total_phases with
      | some v => v
      | none => t
    else t
  | _ => t

/-- The value of the most recent `config` event that supplied `total_phases`, or the
default 8 if none did. -/
def suppliedTotal (signals : List Signal) : Int := signals.foldl nextSupplied 8

/-- The current phase after a signal: `phase_start` sets it to its `phase_num`,
`dashboard_ready` to the total. -/
def nextCurrent (cur : Option Int) (t : Int) : Signal → Option Int
  | .wsMessage (.value (.envelope type (some d))) =>
    if type = some "phase_start" then d.phase_num
    else if type = some "dashboard_ready" then some t
    else cur
  | _ => cur

/-- The integer nearest to `p / t * 100` in exact arithmetic, ties toward `+∞`:
`⌊100 p / t + 1/2⌋`. -/
def exactPercent (p t : Int) : Int := Int.fdiv (200 * p + t) (2 * t)

/-- A `config` message. -/
def configMsg (total_phases : Option Int) : Signal :=
  .wsMessage (.value (.envelope (some "config") (some { total_phases := total_phases })))

/-- A `phase_start` message. -/
def phaseStartMsg (phase_num : Int) (title : String) : Signal :=
  .wsMessage (.value (.envelope (some "phase_start")
    (some { phase_num := some phase_num, title := some title })))

/-- Whether the `total_phases` of a `config` message (when supplied) and the `phase_num`
of a `phase_start` message (required) are non-negative integers. -/
def nonNegFields : Signal → Bool
  | .wsMessage (.value (.envelope type (some d))) =>
    if type = some "config" then
      match d.total_phases with
      | some v => decide (0 ≤ v)
      | none => true
    else if type = some "phase_start" then
      match d.phase_num with
      | some p => decide (0 ≤ p)
      | none => false
    else true
  | _ => true

/-- What the page shows and the client holds, the console left out. -/
def SplashClient.display (c : SplashClient) : SplashClient := { c with console := [] }

/-- Two outcomes that agree on everything but the console: both return or both throw the
same exception, and the clients differ at most by their console. -/
def SameDisplay : Exec → Exec → Prop
  | .ok a, .ok b => a.display = b.display
  | .error (e, a), .error (f, b) => e = f ∧ a.display = b.display
  | _, _ => False

/-! # Theorems -/

/-! ## The log panel -/

theorem evict_eq_drop (k : Nat) (l : List LogEntry) :
    evict k l = l.drop (l.length - k) := by
  induction l with
  | nil => simp [evict]
  | cons e es ih =>
    unfold evict
    split
    · next h =>
      rw [ih]
      have h1 : k ≤ es.length := by simpa [Nat.lt_succ_iff] using h
      have h2 : (e :: es).length - k = (es.length - k) + 1 := by
        simp only [List.length_cons]; omega
      rw [h2, List.drop_succ_cons]
    · next h =>
      have h2 : (e :: es).length - k = 0 := by omega
      rw [h2, List.drop_zero]

theorem lastN_length (n : Nat) (l : List LogEntry) : (lastN n l).length = min l.length n := by
  simp [lastN]; omega

/-- Keeping the last `n` after a first batch and again after a second keeps the last `n`
of both batches together. -/
theorem lastN_append (n : Nat) (A B : List LogEntry) :
    lastN n (lastN n A ++ B) = lastN n (A ++ B) := by
  unfold lastN
  by_cases h : A.length ≤ n
  · have h0 : A.length - n = 0 := by omega
    simp [h0]
  · have hk : (A.drop (A.length - n)).length = n := by
      rw [List.length_drop]; omega
    have e1 : (A.drop (A.length - n) ++ B).length - n = B.length := by
      rw [List.length_append, hk]; omega
    have e2 : (A ++ B).length - n = (A.length - n) + B.length := by
      rw [List.length_append]; omega
    have e3 : (A ++ B).drop (A.length - n) = A.drop (A.length - n) ++ B :=
      List.drop_append_of_le_length (by omega)
    rw [e1, e2, ← List.drop_drop, e3]

theorem addLog_some (c : SplashClient) (d : Data) :
    addLog c (some d) = .ok
      { c with
        logOutput := lastN 100 (c.logOutput ++ [logEntryOf d])
        logCount := c.logCount + 1
        logsCountText := toString (c.logCount + 1) ++ " messages" } := by
  simp [addLog, evict_eq_drop, lastN]

theorem addLogs_spec (ds : List Data) (c : SplashClient) (h : c.logOutput.length ≤ 100) :
    ∃ c1, addLogs c ds = .ok c1 ∧
      c1.logOutput = lastN 100 (c.logOutput ++ ds.map logEntryOf) ∧
      c1.logCount = c.logCount + ds.length := by
  induction ds generalizing c with
  | nil =>
    refine ⟨c, rfl, ?_, rfl⟩
    have h0 : c.logOutput.length - 100 = 0 := by omega
    simp [lastN, h0]
  | cons d ds ih =>
    obtain ⟨c1, h1, h2, h3⟩ := ih
      { c with
        logOutput := lastN 100 (c.logOutput ++ [logEntryOf d])
        logCount := c.logCount + 1
        logsCountText := toString (c.logCount + 1) ++ " messages" }
      (by rw [lastN_length]; omega)
    refine ⟨c1, ?_, ?_, ?_⟩
    · simpa [addLogs, addLog_some] using h1
    · rw [h2]
      simp only [List.map_cons]
      rw [lastN_append, List.append_assoc]
      rfl
    · rw [h3]; simp only [List.length_cons]; omega

/-- C3. Calling addLog on a fresh client for each of n entries in turn returns normally
and leaves in the log panel exactly the last min(n, 100) entries, in the order they were
appended (entries n-99 .. n when n exceeds 100, the oldest having been evicted first),
while logCount equals n whatever was evicted. -/
theorem addLog_keeps_last_hundred (ds : List Data) :
    ∃ c, addLogs SplashClient.fresh ds = .ok c ∧
      c.logOutput = (ds.map logEntryOf).drop (ds.length - 100) ∧
      c.logOutput.length = min ds.length 100 ∧
      c.logCount = ds.length := by
  obtain ⟨c, h1, h2, h3⟩ := addLogs_spec ds SplashClient.fresh (by simp [SplashClient.fresh])
  have hout : c.logOutput = (ds.map logEntryOf).drop (ds.length - 100) := by
    rw [h2]; simp [lastN, SplashClient.fresh]
  have hcount : c.logCount = ds.length := by
    rw [h3]; simp [SplashClient.fresh]
  have hlen : c.logOutput.length = min ds.length 100 := by
    rw [hout, List.length_drop, List.length_map]; omega
  exact ⟨c, h1, hout, hlen, hcount⟩

/-- C3 at 150 entries: the panel holds 100 of them, the 51st to the 150th, and the count
is 150. -/
theorem addLog_keeps_last_hundred_witness :
    ∃ c, addLogs SplashClient.fresh numberedLogs = .ok c ∧
      c.logOutput = (numberedLogs.map logEntryOf).drop 50 ∧
      c.logOutput.length = 100 ∧
      c.logCount = 150 := by
  obtain ⟨c, h1, h2, h3, h4⟩ := addLog_keeps_last_hundred numberedLogs
  have hl : numberedLogs.length = 150 := by simp [numberedLogs]
  rw [hl] at h2 h3 h4
  exact ⟨c, h1, h2, h3, h4⟩


/-! ## Reconnection -/

theorem showError_ok (c : SplashClient) (message : Option String) (fatal : Option Bool) :
    showError c message fatal = .ok
      { c with
        errorBoxHidden := false
        errorMessageText := domText message
        logOutput := lastN 100 (c.logOutput ++ [⟨"log-entry ERROR", "✗ ERROR: " ++ jsStr message⟩])
        logCount := c.logCount + 1
        logsCountText := toString (c.logCount + 1) ++ " messages"
        phaseDisplayAnimation :=
          if fatal = some true then "none" else c.phaseDisplayAnimation } := by
  by_cases h : fatal = some true <;>
    simp [showError, addLog_some, h, logEntryOf, domText, bind, Except.bind, pure, Except.pure]

theorem onclose_retry (c : SplashClient) (h : c.reconnectAttempts < c.maxReconnectAttempts) :
    onclose c = .ok
      { c with
        reconnectAttempts := c.reconnectAttempts + 1
        console := c.console ++ [⟨.log, "WebSocket disconnected"⟩,
          ⟨.log, "Reconnecting in " ++ toString (min (1000 * 2 ^ (c.reconnectAttempts + 1)) 10000)
            ++ "ms (attempt " ++ toString (c.reconnectAttempts + 1) ++ ")"⟩]
        timers := c.timers ++ [.reconnect (min (1000 * 2 ^ (c.reconnectAttempts + 1)) 10000)] } := by
  simp [onclose, handleDisconnect, SplashClient.print, h]

theorem onclose_giveup (c : SplashClient) (h : ¬ c.reconnectAttempts < c.maxReconnectAttempts) :
    onclose c = .ok
      { c with
        console := c.console ++ [⟨.log, "WebSocket disconnected"⟩]
        errorBoxHidden := false
        errorMessageText := connectionLost
        logOutput := lastN 100 (c.logOutput ++ [⟨"log-entry ERROR", "✗ ERROR: " ++ connectionLost⟩])
        logCount := c.logCount + 1
        logsCountText := toString (c.logCount + 1) ++ " messages" } := by
  simp [onclose, handleDisconnect, SplashClient.print, h, showError_ok, domText, jsStr, connectionLost]


theorem afterCloses_zero (c : SplashClient) : afterCloses c 0 = c := rfl

theorem afterCloses_succ (c : SplashClient) (n : Nat) :
    afterCloses c (n + 1) = (onclose (afterCloses c n)).client := by
  simp [afterCloses, run, List.replicate_succ', List.foldl_append, step]

/-- State of the reconnection policy after `k` closes in a row from a counter at 0, for
`k` up to the ceiling: the counter is `k`, nothing was shown or logged. -/
theorem afterCloses_below (c : SplashClient) (h0 : c.reconnectAttempts = 0) (k : Nat)
    (hk : k ≤ c.maxReconnectAttempts) :
    (afterCloses c k).reconnectAttempts = k ∧
    (afterCloses c k).maxReconnectAttempts = c.maxReconnectAttempts ∧
    (afterCloses c k).errorBoxHidden = c.errorBoxHidden ∧
    (afterCloses c k).errorMessageText = c.errorMessageText ∧
    (afterCloses c k).logOutput = c.logOutput ∧
    (afterCloses c k).logCount = c.logCount ∧
    (afterCloses c k).timers =
      c.timers ++ (List.range k).map fun i => Timer.reconnect (min (1000 * 2 ^ (i + 1)) 10000) := by
  induction k with
  | zero => simp [afterCloses_zero, h0]
  | succ k ih =>
    obtain ⟨h1, h2, h3, h4, h5, h6, h7⟩ := ih (by omega)
    have hlt : (afterCloses c k).reconnectAttempts < (afterCloses c k).maxReconnectAttempts := by
      rw [h1, h2]; omega
    rw [afterCloses_succ, onclose_retry _ hlt]
    simp [Exec.client, h1, h2, h3, h4, h5, h6, h7, List.range_succ]

/-- C1 (amended). From a counter at 0 with the ceiling at 5, five closes in a row bring
the counter to 5 and schedule five reconnections (after 2000, 4000, 8000, 10000 and
10000 ms) without showing or logging any error; it is the sixth close that calls
showError, exactly once: the error panel is revealed with the connection-lost message,
one ERROR entry is appended, logCount grows by one, no reconnection is scheduled and
the counter stays at 5. -/
theorem sixth_close_shows_error (c : SplashClient) (h0 : c.reconnectAttempts = 0)
    (h5 : c.maxReconnectAttempts = 5) :
    (afterCloses c 5).reconnectAttempts = 5 ∧
    (afterCloses c 5).errorBoxHidden = c.errorBoxHidden ∧
    (afterCloses c 5).errorMessageText = c.errorMessageText ∧
    (afterCloses c 5).logOutput = c.logOutput ∧
    (afterCloses c 5).logCount = c.logCount ∧
    (afterCloses c 5).timers = c.timers ++
      [.reconnect 2000, .reconnect 4000, .reconnect 8000, .reconnect 10000, .reconnect 10000] ∧
    onclose (afterCloses c 5) = .ok (afterCloses c 6) ∧
    (afterCloses c 6).reconnectAttempts = 5 ∧
    (afterCloses c 6).errorBoxHidden = false ∧
    (afterCloses c 6).errorMessageText = connectionLost ∧
    (afterCloses c 6).logOutput =
      lastN 100 (c.logOutput ++ [⟨"log-entry ERROR", "✗ ERROR: " ++ connectionLost⟩]) ∧
    (afterCloses c 6).logCount = c.logCount + 1 ∧
    (afterCloses c 6).timers = (afterCloses c 5).timers := by
  obtain ⟨h1, h2, h3, h4, h6, h7, h8⟩ := afterCloses_below c h0 5 (by omega)
  have hge : ¬ (afterCloses c 5).reconnectAttempts < (afterCloses c 5).maxReconnectAttempts := by
    rw [h1, h2, h5]; omega
  have h9 : afterCloses c 6 = (onclose (afterCloses c 5)).client := afterCloses_succ c 5
  rw [onclose_giveup _ hge] at h9
  refine ⟨h1, h3, h4, h6, h7, ?_, ?_, ?_, ?_, ?_, ?_, ?_, ?_⟩
  · rw [h8]; simp [List.range_succ]
  · rw [h9, onclose_giveup _ hge]; rfl
  · rw [h9]; simpa [Exec.client] using h1
  · rw [h9]; simp [Exec.client]
  · rw [h9]; simp [Exec.client]
  · rw [h9]; simp [Exec.client, h6]
  · rw [h9]; simp [Exec.client, h7]
  · rw [h9]; simp [Exec.client]

/-- C1 (amended) on a fresh client. -/
theorem sixth_close_shows_error_witness :
    SplashClient.fresh.reconnectAttempts = 0 ∧ SplashClient.fresh.maxReconnectAttempts = 5 ∧
    (afterCloses SplashClient.fresh 5).logCount = SplashClient.fresh.logCount ∧
    (afterCloses SplashClient.fresh 6).logCount = SplashClient.fresh.logCount + 1 :=
  have h := sixth_close_shows_error SplashClient.fresh rfl rfl
  ⟨rfl, rfl, h.2.2.2.2.1, h.2.2.2.2.2.2.2.2.2.2.2.1⟩

/-- C1 as stated fails: after five closes on a fresh client the error panel is still
hidden, the log panel is empty and logCount is 0, so showError has not been called, and
the fifth close has scheduled a fifth reconnection. -/
theorem five_closes_show_no_error :
    (afterCloses SplashClient.fresh 5).errorBoxHidden = true ∧
    (afterCloses SplashClient.fresh 5).logOutput = [] ∧
    (afterCloses SplashClient.fresh 5).logCount = 0 ∧
    (afterCloses SplashClient.fresh 5).errorMessageText ≠ connectionLost ∧
    (afterCloses SplashClient.fresh 5).timers =
      (afterCloses SplashClient.fresh 4).timers ++ [.reconnect 10000] := by
  decide

/-! ## What the handlers leave alone -/

theorem reconnects_append (ts us : List Timer) :
    reconnects (ts ++ us) = reconnects ts + reconnects us := by
  simp [reconnects, List.filter_append]

theorem untouched_refl (c : SplashClient) : Untouched c c := by
  simp [Untouched]

theorem untouched_print (c : SplashClient) (level : ConsoleLevel) (text : String) :
    Untouched c (c.print level text) := by
  simp [Untouched, SplashClient.print]

theorem addLog_untouched (c : SplashClient) (data : Option Data) :
    Untouched c (addLog c data).client := by
  cases data with
  | none => exact untouched_refl c
  | some d => rw [addLog_some]; simp [Untouched, Exec.client]

theorem updatePhase_untouched (c : SplashClient) (data : Option Data) :
    Untouched c (updatePhase c data).client := by
  cases data with
  | none => exact untouched_refl c
  | some d =>
    simp [updatePhase, Untouched, Exec.client, updateProgress, reconnects_append, reconnects]

theorem completePhase_untouched (c : SplashClient) (data : Option Data) :
    Untouched c (completePhase c data).client := by
  cases data with
  | none => exact untouched_refl c
  | some d => unfold completePhase; exact addLog_untouched c _

theorem showSuccess_untouched (c : SplashClient) (data : Option Data) :
    Untouched c (showSuccess c data).client := by
  cases data with
  | none => exact untouched_refl c
  | some d =>
    obtain ⟨message, total_phases, phase_num, title, duration_ms, level, url, delay, fatal⟩ := d
    cases url <;>
      simp [showSuccess, Untouched, Exec.client, updateProgress, reconnects_append, reconnects]

theorem showError_untouched (c : SplashClient) (message : Option String) (fatal : Option Bool) :
    Untouched c (showError c message fatal).client := by
  rw [showError_ok]; simp [Untouched, Exec.client]

theorem handleEvent_untouched (c : SplashClient) (event : Json) :
    Untouched c (handleEvent c event).client := by
  cases event with
  | null => exact untouched_refl c
  | envelope type data =>
    unfold handleEvent
    simp only
    split_ifs
    · cases data with
      | none => exact untouched_refl c
      | some d => exact untouched_print c _ _
    · cases data with
      | none => exact untouched_refl c
      | some d =>
        obtain ⟨message, total_phases, phase_num, title, duration_ms, level, url, delay, fatal⟩ := d
        cases total_phases with
        | none => exact untouched_refl c
        | some t =>
          by_cases ht : t = 0
          · simp [ht, Exec.client, Untouched]
          · simp [ht, Exec.client, Untouched, SplashClient.print]
    · exact updatePhase_untouched c data
    · exact completePhase_untouched c data
    · exact addLog_untouched c data
    · exact showSuccess_untouched c data
    · cases data with
      | none => exact untouched_refl c
      | some d => exact showError_untouched c _ _
    · exact untouched_print c _ _

theorem onmessage_of_ok (c c1 : SplashClient) (v : Json) (h : handleEvent c v = .ok c1) :
    onmessage c (.value v) = .ok c1 := by
  simp [onmessage, h]

theorem onmessage_of_error (c c1 : SplashClient) (v : Json) (e : JSError)
    (h : handleEvent c v = .error (e, c1)) :
    onmessage c (.value v) =
      .ok (c1.print .error ("Failed to parse message: " ++ e.name)) := by
  simp [onmessage, h]

theorem onmessage_untouched (c : SplashClient) (frame : Frame) :
    ∃ c1, onmessage c frame = .ok c1 ∧ Untouched c c1 := by
  cases frame with
  | invalid => exact ⟨_, rfl, untouched_print c _ _⟩
  | value v =>
    have h := handleEvent_untouched c v
    cases hv : handleEvent c v with
    | ok c1 =>
      rw [hv] at h
      exact ⟨c1, onmessage_of_ok c c1 v hv, h⟩
    | error p =>
      obtain ⟨e, c1⟩ := p
      rw [hv] at h
      refine ⟨_, onmessage_of_error c c1 v e hv, ?_⟩
      simpa [Untouched, SplashClient.print, Exec.client] using h

/-- No handler lets an exception escape. -/
theorem step_ok (c : SplashClient) (s : Signal) : ∃ c1, step c s = .ok c1 := by
  cases s with
  | wsOpen => exact ⟨_, rfl⟩
  | wsMessage frame =>
    obtain ⟨c1, h, _⟩ := onmessage_untouched c frame
    exact ⟨c1, h⟩
  | wsError => exact ⟨_, rfl⟩
  | wsClose =>
    by_cases h : c.reconnectAttempts < c.maxReconnectAttempts
    · exact ⟨_, onclose_retry c h⟩
    · exact ⟨_, onclose_giveup c h⟩
  | timeout t => cases t <;> exact ⟨_, rfl⟩

theorem run_nil (c : SplashClient) : run c [] = c := rfl

theorem run_cons (c : SplashClient) (s : Signal) (rest : List Signal) :
    run c (s :: rest) = run (step c s).client rest := rfl

theorem run_append (c : SplashClient) (xs ys : List Signal) :
    run c (xs ++ ys) = run (run c xs) ys := by
  simp [run, List.foldl_append]

theorem invariant_fresh : Invariant SplashClient.fresh := by
  simp [Invariant, SplashClient.fresh]

theorem invariant_step (c : SplashClient) (s : Signal) (h : Invariant c) :
    Invariant (step c s).client := by
  obtain ⟨h1, h2, h3, h4, h5⟩ := h
  cases s with
  | wsOpen => simp [step, onopen, Exec.client, SplashClient.print, Invariant, h2, h3, h4, h5]
  | wsMessage frame =>
    obtain ⟨c1, hc, u1, u2, _, u4, u5, u6⟩ := onmessage_untouched c frame
    simp only [step, hc, Exec.client, Invariant]
    exact ⟨by omega, by omega, u6 h3, by rw [u4, h4], by rw [u5, h5]⟩
  | wsError => simp [step, onerror, Exec.client, SplashClient.print, Invariant, h1, h2, h3, h4, h5]
  | wsClose =>
    by_cases h : c.reconnectAttempts < c.maxReconnectAttempts
    · simp only [step, onclose_retry c h, Exec.client, Invariant]
      exact ⟨by omega, h2, h3, h4, h5⟩
    · simp only [step, onclose_giveup c h, Exec.client, Invariant]
      exact ⟨h1, h2, h3, h4, h5⟩
  | timeout t => cases t <;> simp [step, fire, Exec.client, Invariant, h1, h2, h3, h4, h5]

theorem invariant_run (signals : List Signal) (c : SplashClient) (h : Invariant c) :
    Invariant (run c signals) := by
  induction signals generalizing c with
  | nil => exact h
  | cons s rest ih => exact ih _ (invariant_step c s h)

theorem budget_step (c : SplashClient) (s : Signal) (hs : s ≠ .wsOpen) :
    budget (step c s).client ≤ budget c := by
  cases s with
  | wsOpen => exact absurd rfl hs
  | wsMessage frame =>
    obtain ⟨c1, hc, u1, u2, u3, _⟩ := onmessage_untouched c frame
    simp only [step, hc, Exec.client, budget]
    omega
  | wsError => simp [step, onerror, Exec.client, SplashClient.print, budget]
  | wsClose =>
    by_cases h : c.reconnectAttempts < c.maxReconnectAttempts
    · simp only [step, onclose_retry c h, Exec.client, budget, reconnects_append]
      simp [reconnects]
      omega
    · simp [step, onclose_giveup c h, Exec.client, budget]
  | timeout t => cases t <;> simp [step, fire, Exec.client, budget]

theorem budget_run (signals : List Signal) (c : SplashClient) (hs : Signal.wsOpen ∉ signals) :
    budget (run c signals) ≤ budget c := by
  induction signals generalizing c with
  | nil => exact le_refl _
  | cons s rest ih =>
    have h1 : s ≠ .wsOpen := fun h => hs (by simp [h])
    have h2 : Signal.wsOpen ∉ rest := fun h => hs (by simp [h])
    exact le_trans (ih _ h2) (budget_step c s h1)

theorem afterCloses_max (c : SplashClient) (n : Nat) :
    (afterCloses c n).maxReconnectAttempts = c.maxReconnectAttempts := by
  induction n with
  | zero => rfl
  | succ n ih =>
    rw [afterCloses_succ]
    by_cases h : (afterCloses c n).reconnectAttempts < (afterCloses c n).maxReconnectAttempts
    · rw [onclose_retry _ h]; simpa [Exec.client] using ih
    · rw [onclose_giveup _ h]; simpa [Exec.client] using ih

theorem afterCloses_next_timer (c : SplashClient) (h0 : c.reconnectAttempts = 0) (k : Nat)
    (hk1 : 1 ≤ k) (hk : k ≤ c.maxReconnectAttempts) :
    (afterCloses c k).timers =
      (afterCloses c (k - 1)).timers ++ [.reconnect (min (1000 * 2 ^ k) 10000)] := by
  obtain ⟨j, rfl⟩ : ∃ j, k = j + 1 := ⟨k - 1, by omega⟩
  have a := (afterCloses_below c h0 (j + 1) hk).2.2.2.2.2.2
  have b := (afterCloses_below c h0 j (by omega)).2.2.2.2.2.2
  rw [a, Nat.add_sub_cancel, b, List.range_succ]
  simp

/-- C4. For k from 1 to 5, the k-th close in a row after an open schedules a reconnection
after exactly min(1000 * 2^k, 10000) ms, that is 2000, 4000, 8000, 10000, 10000, however
many closes N came before that open, since the open puts the counter back to 0; the same
holds for the closes that follow construction. -/
theorem kth_close_delay (c : SplashClient) (N k : Nat) (hmax : c.maxReconnectAttempts = 5)
    (hk1 : 1 ≤ k) (hk5 : k ≤ 5) :
    (onopen (afterCloses c N)).client.reconnectAttempts = 0 ∧
    (afterCloses (onopen (afterCloses c N)).client k).timers =
      (afterCloses (onopen (afterCloses c N)).client (k - 1)).timers ++
        [.reconnect (min (1000 * 2 ^ k) 10000)] ∧
    (afterCloses SplashClient.fresh k).timers =
      (afterCloses SplashClient.fresh (k - 1)).timers ++ [.reconnect (min (1000 * 2 ^ k) 10000)] ∧
    min (1000 * 2 ^ k) 10000 = [2000, 4000, 8000, 10000, 10000].getD (k - 1) 0 := by
  have h0 : (onopen (afterCloses c N)).client.reconnectAttempts = 0 := by
    simp [onopen, Exec.client]
  have hm : (onopen (afterCloses c N)).client.maxReconnectAttempts = 5 := by
    have := afterCloses_max c N
    simp [onopen, Exec.client, SplashClient.print, this, hmax]
  refine ⟨h0, afterCloses_next_timer _ h0 k hk1 (by omega),
    afterCloses_next_timer _ rfl k hk1 (by simpa [SplashClient.fresh] using hk5), ?_⟩
  interval_cases k <;> rfl

/-- C4 at the fifth close after an open that followed three losses on a fresh client. -/
theorem kth_close_delay_witness :
    (afterCloses (onopen (afterCloses SplashClient.fresh 3)).client 5).timers =
      (afterCloses (onopen (afterCloses SplashClient.fresh 3)).client 4).timers ++
        [.reconnect 10000] :=
  (kth_close_delay SplashClient.fresh 3 5 rfl (by decide) (by decide)).2.1

theorem afterCloses_counter (c : SplashClient) (h : c.reconnectAttempts ≤ c.maxReconnectAttempts)
    (m : Nat) :
    (afterCloses c m).reconnectAttempts = min (c.reconnectAttempts + m) c.maxReconnectAttempts := by
  induction m with
  | zero => simp [afterCloses_zero, h]
  | succ m ih =>
    have hm := afterCloses_max c m
    rw [afterCloses_succ]
    by_cases hlt : (afterCloses c m).reconnectAttempts < (afterCloses c m).maxReconnectAttempts
    · rw [onclose_retry _ hlt]
      simp only [Exec.client]
      omega
    · rw [onclose_giveup _ hlt]
      simp only [Exec.client]
      omega

/-- C5. In every state reached from a fresh client by any sequence of open, message,
error, close and timer events the reconnect counter is at most 5 (and at least 0); a
close handled while the counter is 5 returns, schedules nothing and leaves the counter
at 5; over any further events without an open at most 5 more reconnections are
scheduled, in particular over m closes in a row; and from five closes in a row on, the
next close (the sixth and every later one) schedules nothing. -/
theorem reconnect_counter_bounded (signals rest : List Signal) (m : Nat) :
    0 ≤ (run SplashClient.fresh signals).reconnectAttempts ∧
    (run SplashClient.fresh signals).reconnectAttempts ≤ 5 ∧
    ((run SplashClient.fresh signals).reconnectAttempts = 5 →
      ∃ c1, onclose (run SplashClient.fresh signals) = .ok c1 ∧
        c1.timers = (run SplashClient.fresh signals).timers ∧ c1.reconnectAttempts = 5) ∧
    (Signal.wsOpen ∉ rest →
      reconnects (run (run SplashClient.fresh signals) rest).timers
        ≤ reconnects (run SplashClient.fresh signals).timers + 5) ∧
    reconnects (afterCloses (run SplashClient.fresh signals) m).timers
      ≤ reconnects (run SplashClient.fresh signals).timers + 5 ∧
    (5 ≤ m →
      (afterCloses (run SplashClient.fresh signals) (m + 1)).timers
        = (afterCloses (run SplashClient.fresh signals) m).timers) := by
  have hinv := invariant_run signals SplashClient.fresh invariant_fresh
  obtain ⟨h1, h2, -, -, -⟩ := hinv
  have hrest : ∀ xs : List Signal, Signal.wsOpen ∉ xs →
      reconnects (run (run SplashClient.fresh signals) xs).timers
        ≤ reconnects (run SplashClient.fresh signals).timers + 5 := by
    intro xs hxs
    have hb := budget_run xs (run SplashClient.fresh signals) hxs
    unfold budget at hb
    omega
  refine ⟨Nat.zero_le _, h1, ?_, hrest rest, ?_, ?_⟩
  · intro h5
    have hge : ¬ (run SplashClient.fresh signals).reconnectAttempts
        < (run SplashClient.fresh signals).maxReconnectAttempts := by omega
    exact ⟨_, onclose_giveup _ hge, rfl, h5⟩
  · exact hrest _ (by simp [List.mem_replicate])
  · intro hm
    have hc := afterCloses_counter (run SplashClient.fresh signals) (by omega) m
    have hx := afterCloses_max (run SplashClient.fresh signals) m
    have hge : ¬ (afterCloses (run SplashClient.fresh signals) m).reconnectAttempts
        < (afterCloses (run SplashClient.fresh signals) m).maxReconnectAttempts := by omega
    rw [afterCloses_succ, onclose_giveup _ hge]
    rfl

/-- C5 on the state reached by an open, a close, an invalid frame and five more closes:
the counter is 5 there, and a further close schedules nothing. -/
theorem reconnect_counter_bounded_witness :
    (run SplashClient.fresh [.wsOpen, .wsClose, .wsMessage .invalid, .wsClose, .wsClose, .wsClose,
      .wsClose, .wsClose]).reconnectAttempts = 5 ∧
    ∃ c1, onclose (run SplashClient.fresh [.wsOpen, .wsClose, .wsMessage .invalid, .wsClose,
        .wsClose, .wsClose, .wsClose, .wsClose]) = .ok c1 ∧
      c1.timers = (run SplashClient.fresh [.wsOpen, .wsClose, .wsMessage .invalid, .wsClose,
        .wsClose, .wsClose, .wsClose, .wsClose]).timers ∧ c1.reconnectAttempts = 5 :=
  ⟨by decide,
    (reconnect_counter_bounded [.wsOpen, .wsClose, .wsMessage .invalid, .wsClose, .wsClose,
      .wsClose, .wsClose, .wsClose] [] 0).2.2.1 (by decide)⟩

/-! ## Dispatch -/

/-- C2 (amended). For every envelope whose type is none of connected, config,
phase_start, phase_complete, log, dashboard_ready, error, handleEvent returns without
throwing and does one thing only: it prints one warning on the console.  Nothing is
appended to the log panel: the log buffer, logCount, currentPhase, totalPhases and the
reconnect counter are unchanged. -/
theorem unknown_type_warns_on_console (c : SplashClient) (type : Option String)
    (data : Option Data) (h : ∀ t ∈ knownTypes, type ≠ some t) :
    handleEvent c (.envelope type data) =
      .ok (c.print .warn ("Unknown event type: " ++ jsStr type)) ∧
    (c.print .warn ("Unknown event type: " ++ jsStr type)).console =
      c.console ++ [ConsoleEntry.mk .warn ("Unknown event type: " ++ jsStr type)] ∧
    (c.print .warn ("Unknown event type: " ++ jsStr type)).logOutput = c.logOutput ∧
    (c.print .warn ("Unknown event type: " ++ jsStr type)).logCount = c.logCount ∧
    (c.print .warn ("Unknown event type: " ++ jsStr type)).currentPhase = c.currentPhase ∧
    (c.print .warn ("Unknown event type: " ++ jsStr type)).totalPhases = c.totalPhases ∧
    (c.print .warn ("Unknown event type: " ++ jsStr type)).reconnectAttempts =
      c.reconnectAttempts := by
  refine ⟨?_, rfl, rfl, rfl, rfl, rfl, rfl⟩
  have h1 := h "connected" (by simp [knownTypes])
  have h2 := h "config" (by simp [knownTypes])
  have h3 := h "phase_start" (by simp [knownTypes])
  have h4 := h "phase_complete" (by simp [knownTypes])
  have h5 := h "log" (by simp [knownTypes])
  have h6 := h "dashboard_ready" (by simp [knownTypes])
  have h7 := h "error" (by simp [knownTypes])
  simp [handleEvent, h1, h2, h3, h4, h5, h6, h7]

/-- C2 (amended) at the type bogus on a fresh client. -/
theorem unknown_type_warns_on_console_witness :
    handleEvent SplashClient.fresh (.envelope (some "bogus") (some {})) =
      .ok (SplashClient.fresh.print .warn ("Unknown event type: " ++ jsStr (some "bogus"))) :=
  (unknown_type_warns_on_console SplashClient.fresh (some "bogus") (some {}) (by decide)).1

/-- C2 as stated fails: on a fresh client an envelope of type bogus is handled without
an exception, but the log panel stays empty and logCount stays 0; the warning went to
the console. -/
theorem bogus_type_appends_no_log_entry :
    (∃ c1, handleEvent SplashClient.fresh (.envelope (some "bogus") (some {})) = .ok c1 ∧
      c1.logOutput = [] ∧ c1.logCount = 0 ∧
      c1.console = [ConsoleEntry.mk .warn "Unknown event type: bogus"]) :=
  ⟨_, rfl, by decide, by decide, by decide⟩

/-- C8. For every message m and every fatal (true, false or absent), handling
error{message: m, fatal} returns normally, reveals the error panel with text m, appends
exactly one entry, of class ERROR and whose text ends with m, to the log panel (the
panel keeping its last 100) and adds 1 to logCount; the animation of the phase display
is set to none when fatal is true and is left as it was otherwise; currentPhase,
totalPhases and the reconnect counter are unchanged. -/
theorem error_event_shows_and_logs (c : SplashClient) (m : String) (fatal : Option Bool) :
    ∃ c1, handleEvent c (.envelope (some "error") (some { message := some m, fatal := fatal }))
        = .ok c1 ∧
      c1.errorBoxHidden = false ∧
      c1.errorMessageText = m ∧
      c1.logOutput = (c.logOutput ++ [LogEntry.mk "log-entry ERROR" ("✗ ERROR: " ++ m)]).drop
        (c.logOutput.length + 1 - 100) ∧
      c1.logOutput.getLast? = some (LogEntry.mk "log-entry ERROR" ("✗ ERROR: " ++ m)) ∧
      m.toList <:+ ("✗ ERROR: " ++ m).toList ∧
      c1.logCount = c.logCount + 1 ∧
      (fatal = some true → c1.phaseDisplayAnimation = "none") ∧
      (fatal ≠ some true → c1.phaseDisplayAnimation = c.phaseDisplayAnimation) ∧
      c1.currentPhase = c.currentPhase ∧
      c1.totalPhases = c.totalPhases ∧
      c1.reconnectAttempts = c.reconnectAttempts := by
  have hev : handleEvent c (.envelope (some "error") (some { message := some m, fatal := fatal }))
      = showError c (some m) fatal := by
    simp [handleEvent]
  rw [hev, showError_ok]
  refine ⟨_, rfl, rfl, rfl, ?_, ?_, ?_, rfl, ?_, ?_, rfl, rfl, rfl⟩
  · simp [lastN, jsStr]
  · simp only [lastN, jsStr]
    rw [List.getLast?_drop, if_neg (by simp only [List.length_append, List.length_singleton]; omega)]
    simp
  · exact ⟨"✗ ERROR: ".toList, by simp⟩
  · intro h; simp [h]
  · intro h; simp [h]

/-- C8 at the message boom with fatal true, on a fresh client: the animation of the phase
display is frozen and one ERROR entry holding boom is logged. -/
theorem error_event_shows_and_logs_witness :
    ∃ c1, handleEvent SplashClient.fresh
        (.envelope (some "error") (some { message := some "boom", fatal := some true }))
        = .ok c1 ∧
      c1.errorMessageText = "boom" ∧
      c1.logOutput = [LogEntry.mk "log-entry ERROR" "✗ ERROR: boom"] ∧
      c1.logCount = 1 ∧
      c1.phaseDisplayAnimation = "none" := by
  obtain ⟨c1, h1, _, h3, h4, _, _, h7, h8, _⟩ :=
    error_event_shows_and_logs SplashClient.fresh "boom" (some true)
  exact ⟨c1, h1, h3, by rw [h4]; rfl, by rw [h7]; rfl, h8 rfl⟩

/-! ## The console is write-only -/

theorem display_print (c : SplashClient) (level : ConsoleLevel) (text : String) :
    (c.print level text).display = c.display := rfl

theorem addLog_sameDisplay (c : SplashClient) (k : List ConsoleEntry) (data : Option Data) :
    SameDisplay (addLog { c with console := k } data) (addLog c data) := by
  cases data with
  | none => exact ⟨rfl, rfl⟩
  | some d => rw [addLog_some, addLog_some]; rfl

theorem updatePhase_sameDisplay (c : SplashClient) (k : List ConsoleEntry) (data : Option Data) :
    SameDisplay (updatePhase { c with console := k } data) (updatePhase c data) := by
  cases data with
  | none => exact ⟨rfl, rfl⟩
  | some d => rfl

theorem showSuccess_sameDisplay (c : SplashClient) (k : List ConsoleEntry) (data : Option Data) :
    SameDisplay (showSuccess { c with console := k } data) (showSuccess c data) := by
  cases data with
  | none => exact ⟨rfl, rfl⟩
  | some d =>
    obtain ⟨message, total_phases, phase_num, title, duration_ms, level, url, delay, fatal⟩ := d
    cases url with
    | none => exact ⟨rfl, rfl⟩
    | some u => rfl

theorem showError_sameDisplay (c : SplashClient) (k : List ConsoleEntry) (message : Option String)
    (fatal : Option Bool) :
    SameDisplay (showError { c with console := k } message fatal) (showError c message fatal) := by
  rw [showError_ok, showError_ok]; rfl

theorem handleEvent_sameDisplay (c : SplashClient) (k : List ConsoleEntry) (v : Json) :
    SameDisplay (handleEvent { c with console := k } v) (handleEvent c v) := by
  cases v with
  | null => exact ⟨rfl, rfl⟩
  | envelope type data =>
    simp only [handleEvent]
    split_ifs
    · cases data with
      | none => exact ⟨rfl, rfl⟩
      | some d => rfl
    · cases data with
      | none => exact ⟨rfl, rfl⟩
      | some d =>
        obtain ⟨message, total_phases, phase_num, title, duration_ms, level, url, delay, fatal⟩ := d
        cases total_phases with
        | none => rfl
        | some t =>
          by_cases ht : t = 0
          · simp only [ht, ne_eq, not_true_eq_false, if_false]; rfl
          · simp only [ht, ne_eq, not_false_eq_true, if_true]; rfl
    · exact updatePhase_sameDisplay c k data
    · cases data with
      | none => exact ⟨rfl, rfl⟩
      | some d => unfold completePhase; exact addLog_sameDisplay c k _
    · exact addLog_sameDisplay c k data
    · exact showSuccess_sameDisplay c k data
    · cases data with
      | none => exact ⟨rfl, rfl⟩
      | some d => exact showError_sameDisplay c k _ _
    · rfl

/-- Handling a frame has the same effect, console apart, whatever the console held. -/
theorem onmessage_sameDisplay (c : SplashClient) (k : List ConsoleEntry) (frame : Frame) :
    SameDisplay (onmessage { c with console := k } frame) (onmessage c frame) := by
  cases frame with
  | invalid => rfl
  | value v =>
    have h := handleEvent_sameDisplay c k v
    cases h1 : handleEvent { c with console := k } v with
    | ok a =>
      cases h2 : handleEvent c v with
      | ok b =>
        rw [h1, h2] at h
        rw [onmessage_of_ok _ _ _ h1, onmessage_of_ok _ _ _ h2]
        exact h
      | error q => rw [h1, h2] at h; exact absurd h (by simp [SameDisplay])
    | error p =>
      obtain ⟨e, a⟩ := p
      cases h2 : handleEvent c v with
      | ok b => rw [h1, h2] at h; exact absurd h (by simp [SameDisplay])
      | error q =>
        obtain ⟨f, b⟩ := q
        rw [h1, h2] at h
        obtain ⟨hef, hab⟩ := h
        rw [onmessage_of_error _ _ _ _ h1, onmessage_of_error _ _ _ _ h2]
        show (a.print _ _).display = (b.print _ _).display
        rw [display_print, display_print]
        exact hab

theorem onmessage_after_print (c : SplashClient) (level : ConsoleLevel) (text : String)
    (frame : Frame) :
    (onmessage (c.print level text) frame).client.display
      = (onmessage c frame).client.display := by
  have h := onmessage_sameDisplay c (c.console ++ [⟨level, text⟩]) frame
  obtain ⟨a, ha, -⟩ := onmessage_untouched (c.print level text) frame
  obtain ⟨b, hb, -⟩ := onmessage_untouched c frame
  have ha1 : onmessage { c with console := c.console ++ [⟨level, text⟩] } frame = .ok a := ha
  rw [ha1, hb] at h
  rw [ha, hb]
  exact h

theorem handleEvent_no_data (c : SplashClient) (t : String) (h : t ∈ knownTypes) :
    handleEvent c (.envelope (some t) none) = .error (.typeError, c) := by
  simp only [knownTypes, List.mem_cons, List.mem_singleton, List.not_mem_nil, or_false] at h
  rcases h with h | h | h | h | h | h | h <;> subst h <;>
    simp [handleEvent, updatePhase, completePhase, addLog, showSuccess]

theorem onmessage_display (c : SplashClient) (v : Json) :
    (onmessage c (.value v)).client.display = (handleEvent c v).client.display := by
  cases hv : handleEvent c v with
  | ok c1 => rw [onmessage_of_ok c c1 v hv]
  | error q =>
    obtain ⟨e, c1⟩ := q
    rw [onmessage_of_error c c1 v e hv]
    rfl

theorem handleEvent_quiet (c : SplashClient) (v : Json)
    (h : actedUpon (.value v) = false) :
    (handleEvent c v).client.display = c.display := by
  cases v with
  | null => rfl
  | envelope type data =>
    cases data with
    | none =>
      simp only [handleEvent, updatePhase, completePhase, addLog, showSuccess]
      split_ifs <;> rfl
    | some d =>
      simp only [actedUpon] at h
      by_cases h2 : type = some "config"
      · rw [if_pos h2] at h
        subst h2
        obtain ⟨message, total_phases, phase_num, title, duration_ms, level, url, delay, fatal⟩ := d
        cases total_phases with
        | none => simp [handleEvent, Exec.client]
        | some t =>
          have ht : t = 0 := by simpa using h
          simp [handleEvent, ht, Exec.client]
      · rw [if_neg h2] at h
        simp only [Bool.or_eq_false_iff, decide_eq_false_iff_not] at h
        obtain ⟨⟨⟨⟨h3, h4⟩, h5⟩, h6⟩, h7⟩ := h
        by_cases h1 : type = some "connected"
        · subst h1; simp [handleEvent, Exec.client, SplashClient.print, SplashClient.display]
        · simp [handleEvent, h1, h2, h3, h4, h5, h6, h7, Exec.client, SplashClient.print,
            SplashClient.display]

theorem onmessage_quiet (c : SplashClient) (frame : Frame) (h : actedUpon frame = false) :
    (onmessage c frame).client.display = c.display := by
  cases frame with
  | invalid => rfl
  | value v => rw [onmessage_display, handleEvent_quiet c v h]

theorem onmessage_congr_display (a b : SplashClient) (frame : Frame)
    (h : a.display = b.display) :
    (onmessage a frame).client.display = (onmessage b frame).client.display := by
  have hab : a = { b with console := a.console } := by
    cases a; cases b
    simp only [SplashClient.display, SplashClient.mk.injEq] at h
    simp only [SplashClient.mk.injEq]
    tauto
  have hs := onmessage_sameDisplay b a.console frame
  obtain ⟨x, hx, -⟩ := onmessage_untouched a frame
  obtain ⟨y, hy, -⟩ := onmessage_untouched b frame
  rw [← hab, hx, hy] at hs
  rw [hx, hy]
  exact hs

theorem malformed_acted_types (frame : Frame) (hm : malformed frame = true)
    (ha : actedUpon frame = true) :
    ∃ type d, frame = .value (.envelope (some type) (some d)) ∧
      type ∈ ["phase_start", "phase_complete", "log", "dashboard_ready", "error"] := by
  cases frame with
  | invalid => simp [actedUpon] at ha
  | value v =>
    cases v with
    | null => simp [actedUpon] at ha
    | envelope type data =>
      cases data with
      | none => simp [actedUpon] at ha
      | some d =>
        simp only [actedUpon] at ha
        by_cases h2 : type = some "config"
        · subst h2
          simp [malformed, wellFormed] at hm
        · rw [if_neg h2] at ha
          simp only [Bool.or_eq_true, decide_eq_true_eq] at ha
          rcases ha with (((h | h) | h) | h) | h <;> subst h <;>
            exact ⟨_, d, rfl, by simp⟩

theorem acted_frames_change_display (frame : Frame) (ha : actedUpon frame = true) :
    ∃ c0, (onmessage c0 frame).client.display ≠ c0.display := by
  cases frame with
  | invalid => simp [actedUpon] at ha
  | value v =>
    cases v with
    | null => simp [actedUpon] at ha
    | envelope type data =>
      cases data with
      | none => simp [actedUpon] at ha
      | some d =>
        simp only [actedUpon] at ha
        by_cases h2 : type = some "config"
        · rw [if_pos h2] at ha
          subst h2
          obtain ⟨message, total_phases, phase_num, title, duration_ms, level, url, delay,
            fatal⟩ := d
          cases total_phases with
          | none => simp at ha
          | some t =>
            have ht0 : t ≠ 0 := by simpa using ha
            refine ⟨{ SplashClient.fresh with totalPhases := t + 1 }, fun hd => ?_⟩
            rw [onmessage_display] at hd
            have h1 := congrArg SplashClient.totalPhases hd
            simp [handleEvent, ht0, Exec.client, SplashClient.print, SplashClient.display] at h1
        · rw [if_neg h2] at ha
          simp only [Bool.or_eq_true, decide_eq_true_eq] at ha
          refine ⟨SplashClient.fresh, fun hd => ?_⟩
          rw [onmessage_display] at hd
          rcases ha with (((h | h) | h) | h) | h <;> subst h
          · have h1 := congrArg SplashClient.timers hd
            simp [handleEvent, updatePhase, updateProgress, Exec.client, SplashClient.display,
              SplashClient.fresh] at h1
          · have h1 := congrArg SplashClient.logCount hd
            simp [handleEvent, completePhase, addLog_some, Exec.client, SplashClient.display,
              SplashClient.fresh] at h1
          · have h1 := congrArg SplashClient.logCount hd
            simp [handleEvent, addLog_some, Exec.client, SplashClient.display,
              SplashClient.fresh] at h1
          · have h1 := congrArg SplashClient.successBoxHidden hd
            obtain ⟨message, total_phases, phase_num, title, duration_ms, level, url, delay,
              fatal⟩ := d
            cases url <;>
              simp [handleEvent, showSuccess, updateProgress, Exec.client,
                SplashClient.display, SplashClient.fresh] at h1
          · have h1 := congrArg SplashClient.logCount hd
            simp [handleEvent, showError_ok, Exec.client, SplashClient.display,
              SplashClient.fresh] at h1

/-- C9 (amended). Whatever the inbound frame, the onmessage handler returns normally: no
exception escapes it.  Every frame is dropped (at most a console line is printed;
currentPhase, totalPhases, the log buffer, logCount, the reconnect counter, both panels
and everything else on the page are as before, and the next frame is handled as it would
have been without it) unless the handlers act upon it, that is unless it is an envelope
of type phase_start, phase_complete, log, dashboard_ready or error whose data is neither
absent nor null, or a config envelope whose data carries a non-zero total_phases.  In
particular every malformed payload is dropped, be it text that is not valid JSON, a JSON
null, a value that is not an object, an envelope with no type or with no data, or a
connected envelope with no message, except the malformed envelopes of those five types
that carry a data.  The exception cannot be narrowed: each frame that is acted upon
changes the page in some state. -/
theorem onmessage_drops_unless_acted_upon (c : SplashClient) (frame next : Frame) :
    (∃ c1, onmessage c frame = .ok c1) ∧
    (actedUpon frame = false →
      (onmessage c frame).client.display = c.display ∧
      (onmessage c frame).client.currentPhase = c.currentPhase ∧
      (onmessage c frame).client.totalPhases = c.totalPhases ∧
      (onmessage c frame).client.logOutput = c.logOutput ∧
      (onmessage c frame).client.logCount = c.logCount ∧
      (onmessage c frame).client.reconnectAttempts = c.reconnectAttempts ∧
      (onmessage c frame).client.successBoxHidden = c.successBoxHidden ∧
      (onmessage c frame).client.errorBoxHidden = c.errorBoxHidden ∧
      (onmessage (onmessage c frame).client next).client.display
        = (onmessage c next).client.display) ∧
    (malformed frame = true → actedUpon frame = true →
      ∃ type d, frame = .value (.envelope (some type) (some d)) ∧
        type ∈ ["phase_start", "phase_complete", "log", "dashboard_ready", "error"]) ∧
    (actedUpon frame = true → ∃ c0, (onmessage c0 frame).client.display ≠ c0.display) := by
  refine ⟨?_, ?_, malformed_acted_types frame, acted_frames_change_display frame⟩
  · obtain ⟨c1, h, _⟩ := onmessage_untouched c frame
    exact ⟨c1, h⟩
  · intro h
    have hd := onmessage_quiet c frame h
    have e1 : (onmessage c frame).client.display.currentPhase = c.display.currentPhase :=
      congrArg SplashClient.currentPhase hd
    have e2 : (onmessage c frame).client.display.totalPhases = c.display.totalPhases :=
      congrArg SplashClient.totalPhases hd
    have e3 : (onmessage c frame).client.display.logOutput = c.display.logOutput :=
      congrArg SplashClient.logOutput hd
    have e4 : (onmessage c frame).client.display.logCount = c.display.logCount :=
      congrArg SplashClient.logCount hd
    have e5 : (onmessage c frame).client.display.reconnectAttempts
        = c.display.reconnectAttempts := congrArg SplashClient.reconnectAttempts hd
    have e6 : (onmessage c frame).client.display.successBoxHidden
        = c.display.successBoxHidden := congrArg SplashClient.successBoxHidden hd
    have e7 : (onmessage c frame).client.display.errorBoxHidden
        = c.display.errorBoxHidden := congrArg SplashClient.errorBoxHidden hd
    exact ⟨hd, e1, e2, e3, e4, e5, e6, e7, onmessage_congr_display _ _ next hd⟩

/-- C9 (amended) on three malformed payloads, each dropped by a fresh client: text that
is not valid JSON, a value that is not an object (neither type nor data), and a
connected envelope whose data has no message. -/
theorem onmessage_drops_unless_acted_upon_witness :
    malformed .invalid = true ∧
    (onmessage SplashClient.fresh .invalid).client.display = SplashClient.fresh.display ∧
    malformed (.value (.envelope none none)) = true ∧
    (onmessage SplashClient.fresh (.value (.envelope none none))).client.logCount = 0 ∧
    malformed (.value (.envelope (some "connected") (some {}))) = true ∧
    (onmessage SplashClient.fresh
      (.value (.envelope (some "connected") (some {})))).client.display
        = SplashClient.fresh.display :=
  ⟨by decide,
    ((onmessage_drops_unless_acted_upon SplashClient.fresh .invalid .invalid).2.1
      (by decide)).1,
    by decide,
    ((onmessage_drops_unless_acted_upon SplashClient.fresh (.value (.envelope none none))
      .invalid).2.1 (by decide)).2.2.2.2.1,
    by decide,
    ((onmessage_drops_unless_acted_upon SplashClient.fresh
      (.value (.envelope (some "connected") (some {}))) .invalid).2.1 (by decide)).1⟩

/-- C9 as stated fails: a dashboard_ready envelope without url is a malformed payload,
yet it is not dropped.  On a fresh client the handler returns normally, but the success
panel has been revealed and currentPhase has moved from 0 to 8 before the missing url
raised the exception that the handler caught. -/
theorem malformed_dashboard_ready_not_dropped :
    malformed (.value (.envelope (some "dashboard_ready") (some {}))) = true ∧
    SplashClient.fresh.currentPhase = some 0 ∧ SplashClient.fresh.successBoxHidden = true ∧
    (∃ c1, onmessage SplashClient.fresh (.value (.envelope (some "dashboard_ready") (some {})))
        = .ok c1 ∧
      c1.currentPhase = some 8 ∧ c1.successBoxHidden = false ∧
      c1.progressPercentText = "100%" ∧
      c1.console = [ConsoleEntry.mk .error "Failed to parse message: TypeError"]) :=
  ⟨by decide, rfl, rfl, _, rfl, by decide, by decide, by decide, by decide⟩

/-! ## Success -/

theorem replacePresentation_slash (pre : List Char) :
    replacePresentation (pre ++ (presentationPath ++ ['/'])) = pre := by
  induction pre with
  | nil => decide
  | cons a pre ih =>
    have h1 : ¬ (a :: (pre ++ (presentationPath ++ ['/'])) = presentationPath) := by
      intro h
      have := congrArg List.length h
      simp [presentationPath] at this
    have h2 : ¬ (a :: (pre ++ (presentationPath ++ ['/'])) = presentationPath ++ ['/']) := by
      intro h
      have := congrArg List.length h
      simp [presentationPath] at this
    rw [List.cons_append, replacePresentation, if_neg (not_or.mpr ⟨h1, h2⟩), ih]

theorem replacePresentation_plain (pre : List Char) :
    replacePresentation (pre ++ presentationPath) = pre := by
  induction pre with
  | nil => decide
  | cons a pre ih =>
    have h1 : ¬ (a :: (pre ++ presentationPath) = presentationPath) := by
      intro h
      have := congrArg List.length h
      simp [presentationPath] at this
    have h2 : ¬ (a :: (pre ++ presentationPath) = presentationPath ++ ['/']) := by
      intro h
      have hl := congrArg List.length h
      have hl0 : pre.length = 0 := by simpa [presentationPath] using hl
      have hp : pre = [] := List.eq_nil_of_length_eq_zero hl0
      subst hp
      revert h
      simp [presentationPath]
    rw [List.cons_append, replacePresentation, if_neg (not_or.mpr ⟨h1, h2⟩), ih]

theorem replacePresentation_other (cs : List Char)
    (h1 : ¬ presentationPath <:+ cs) (h2 : ¬ (presentationPath ++ ['/']) <:+ cs) :
    replacePresentation cs = cs := by
  induction cs with
  | nil => rfl
  | cons a cs ih =>
    have e1 : ¬ (a :: cs = presentationPath) := fun h => h1 (h ▸ List.suffix_refl _)
    have e2 : ¬ (a :: cs = presentationPath ++ ['/']) := fun h => h2 (h ▸ List.suffix_refl _)
    have i1 : ¬ presentationPath <:+ cs := fun h => h1 (List.suffix_cons_iff.mpr (Or.inr h))
    have i2 : ¬ (presentationPath ++ ['/']) <:+ cs :=
      fun h => h2 (List.suffix_cons_iff.mpr (Or.inr h))
    simp only [replacePresentation, e1, e2, or_self, if_false, ih i1 i2]

/-- The regular-expression replacement of the code computes the base of the
specification. -/
theorem stripPresentation_eq_baseOf (url : String) : stripPresentation url = baseOf url := by
  unfold stripPresentation baseOf
  by_cases h2 : (presentationPath ++ ['/']) <:+ url.toList
  · obtain ⟨pre, hpre⟩ := h2
    have hs : (presentationPath ++ ['/']).isSuffixOf url.toList = true := by
      rw [List.isSuffixOf_iff_suffix]; exact ⟨pre, hpre⟩
    rw [if_pos hs, ← hpre, replacePresentation_slash]
    congr 1
    simp [presentationPath]
  · have hs2 : ¬ (presentationPath ++ ['/']).isSuffixOf url.toList = true := by
      rw [List.isSuffixOf_iff_suffix]; exact h2
    rw [if_neg hs2]
    by_cases h1 : presentationPath <:+ url.toList
    · obtain ⟨pre, hpre⟩ := h1
      have hs : presentationPath.isSuffixOf url.toList = true := by
        rw [List.isSuffixOf_iff_suffix]; exact ⟨pre, hpre⟩
      rw [if_pos hs, ← hpre, replacePresentation_plain]
      congr 1
      simp [presentationPath]
    · have hs1 : ¬ presentationPath.isSuffixOf url.toList = true := by
        rw [List.isSuffixOf_iff_suffix]; exact h1
      rw [if_neg hs1, replacePresentation_other _ h1 h2]
      rfl

theorem roundBinary64_self (n : Nat) (hn : 0 < n) : roundBinary64 n n = (2 ^ 52, -52) := by
  have hq : scaledQuot n n (-52) = 2 ^ 52 := by
    simp only [scaledQuot]
    rw [if_neg (by decide)]
    exact Nat.mul_div_cancel_left _ hn
  have he : ulpExp n n = -52 := by
    simp only [ulpExp]
    rw [sub_self, zero_sub, hq]
    simp
  have hr : scaledRem n n (-52) = (0, n) := by
    simp only [scaledRem]
    rw [if_neg (by decide)]
    simp
  simp only [roundBinary64]
  rw [he, hq, hr]
  have h1 : ¬ (n < 2 * 0 ∨ (2 * 0 = n ∧ 2 ^ 52 % 2 = 1)) := by omega
  rw [if_neg h1]

/-- A number of phases divided by itself and taken in hundredths rounds to 100. -/
theorem percent_complete (t : Int) (ht : t ≠ 0) :
    mathRound (jsMulConst (jsDiv (some t) t) 100) = .int 100 := by
  have hn : 0 < t.natAbs := Int.natAbs_pos.mpr ht
  have hdiv : jsDiv (some t) t = .finite false (2 ^ 52) (-52) := by
    simp only [jsDiv]
    rw [if_neg ht, if_neg ht, roundBinary64_self _ hn]
    simp
  rw [hdiv]
  decide

theorem showSuccess_url (c : SplashClient) (url : String) (delay : Option Int)
    (ht : c.totalPhases ≠ 0) :
    showSuccess c (some { url := some url, redirect_delay_ms := delay }) = .ok
      { c with
        successBoxHidden := false
        dashboardUrlText := url
        currentPhase := some c.totalPhases
        progressBarWidth := "100%"
        progressPercentText := "100%"
        progressPhaseText := "Phase " ++ toString c.totalPhases ++ "/" ++ toString c.totalPhases
        btnPresentation := c.btnPresentation.map fun _ => baseOf url ++ "/presentation"
        btnModule := c.btnModule.map fun _ =>
          baseOf url ++ "/presentation/module_1_fundamentals/0"
        timers := c.timers ++ [.redirect url (delay.getD 3000)] } := by
  have hp := percent_complete c.totalPhases ht
  have h100 : Rounded.toStr (.int 100) ++ "%" = "100%" := by decide
  have hvalid : Rounded.validWidth (.int 100) = true := by decide
  cases delay <;>
    simp [showSuccess, updateProgress, domText, hp, h100, hvalid, numStr,
      stripPresentation_eq_baseOf]

/-- C7. In every reachable state and for every string url, showSuccess({url, ...})
returns normally, sets currentPhase to totalPhases so that the percent shown is 100,
reveals the success panel showing url, takes as base the url without one trailing
/presentation or /presentation/ when it ends with either and the url itself otherwise,
and sets the two links to base + /presentation and
base + /presentation/module_1_fundamentals/0. -/
theorem showSuccess_completes_and_links (signals : List Signal) (url : String)
    (delay : Option Int) :
    ∃ c1, showSuccess (run SplashClient.fresh signals)
        (some { url := some url, redirect_delay_ms := delay }) = .ok c1 ∧
      handleEvent (run SplashClient.fresh signals) (.envelope (some "dashboard_ready")
        (some { url := some url, redirect_delay_ms := delay })) = .ok c1 ∧
      c1.totalPhases = (run SplashClient.fresh signals).totalPhases ∧
      c1.currentPhase = some c1.totalPhases ∧
      c1.progressPercentText = "100%" ∧
      c1.progressBarWidth = "100%" ∧
      c1.successBoxHidden = false ∧
      c1.dashboardUrlText = url ∧
      stripPresentation url = baseOf url ∧
      c1.btnPresentation = some (baseOf url ++ "/presentation") ∧
      c1.btnModule = some (baseOf url ++ "/presentation/module_1_fundamentals/0") := by
  obtain ⟨-, -, ht, hb1, hb2⟩ := invariant_run signals SplashClient.fresh invariant_fresh
  generalize run SplashClient.fresh signals = c at ht hb1 hb2 ⊢
  obtain ⟨b1, hb1⟩ := Option.isSome_iff_exists.mp hb1
  obtain ⟨b2, hb2⟩ := Option.isSome_iff_exists.mp hb2
  have hev : handleEvent c (.envelope (some "dashboard_ready")
      (some { url := some url, redirect_delay_ms := delay }))
      = showSuccess c (some { url := some url, redirect_delay_ms := delay }) := by
    simp [handleEvent]
  rw [hev, showSuccess_url c url delay ht]
  refine ⟨_, rfl, rfl, rfl, rfl, rfl, rfl, rfl, rfl, stripPresentation_eq_baseOf url, ?_, ?_⟩
  · simp [hb1]
  · simp [hb2]

/-- C7 at the url http://x/presentation/ on a fresh client. -/
theorem showSuccess_completes_and_links_witness :
    baseOf "http://x/presentation/" = "http://x" ∧
    ∃ c1, showSuccess SplashClient.fresh
        (some { url := some "http://x/presentation/", redirect_delay_ms := some 0 }) = .ok c1 ∧
      c1.currentPhase = some 8 ∧
      c1.progressPercentText = "100%" ∧
      c1.dashboardUrlText = "http://x/presentation/" ∧
      c1.btnPresentation = some "http://x/presentation" ∧
      c1.btnModule = some "http://x/presentation/module_1_fundamentals/0" := by
  have hb : baseOf "http://x/presentation/" = "http://x" := by decide
  obtain ⟨c1, h1, _, h3, h4, h5, _, _, h8, _, h10, h11⟩ :=
    showSuccess_completes_and_links [] "http://x/presentation/" (some 0)
  rw [hb] at h10 h11
  refine ⟨hb, c1, h1, ?_, h5, h8, h10, h11⟩
  rw [h4, h3]
  rfl

/-! ## Progress -/

theorem onmessage_client (c : SplashClient) (v : Json) :
    ∃ c1, onmessage c (.value v) = .ok c1 ∧
      c1.totalPhases = (handleEvent c v).client.totalPhases ∧
      c1.currentPhase = (handleEvent c v).client.currentPhase := by
  cases hv : handleEvent c v with
  | ok c1 => exact ⟨c1, onmessage_of_ok c c1 v hv, rfl, rfl⟩
  | error p =>
    obtain ⟨e, c1⟩ := p
    exact ⟨_, onmessage_of_error c c1 v e hv, rfl, rfl⟩

theorem addLog_phases (c : SplashClient) (data : Option Data) :
    (addLog c data).client.totalPhases = c.totalPhases ∧
    (addLog c data).client.currentPhase = c.currentPhase := by
  cases data with
  | none => exact ⟨rfl, rfl⟩
  | some d => rw [addLog_some]; exact ⟨rfl, rfl⟩

theorem showSuccess_phases (c : SplashClient) (d : Data) :
    (showSuccess c (some d)).client.totalPhases = c.totalPhases ∧
    (showSuccess c (some d)).client.currentPhase = some c.totalPhases := by
  obtain ⟨message, total_phases, phase_num, title, duration_ms, level, url, delay, fatal⟩ := d
  cases url <;> simp [showSuccess, Exec.client, updateProgress]

theorem handleEvent_phases (c : SplashClient) (v : Json) :
    (handleEvent c v).client.totalPhases = nextTotal c.totalPhases (.wsMessage (.value v)) ∧
    (handleEvent c v).client.currentPhase =
      nextCurrent c.currentPhase c.totalPhases (.wsMessage (.value v)) := by
  cases v with
  | null => exact ⟨rfl, rfl⟩
  | envelope type data =>
    cases data with
    | none =>
      simp only [handleEvent, nextTotal, nextCurrent, updatePhase, completePhase, addLog,
        showSuccess]
      split_ifs <;> exact ⟨rfl, rfl⟩
    | some d =>
      simp only [handleEvent, nextTotal, nextCurrent]
      by_cases h1 : type = some "connected"
      · subst h1; simp [Exec.client, SplashClient.print]
      rw [if_neg h1]
      by_cases h2 : type = some "config"
      · subst h2
        obtain ⟨message, total_phases, phase_num, title, duration_ms, level, url, delay, fatal⟩ := d
        cases total_phases with
        | none => simp [Exec.client]
        | some t =>
          by_cases ht : t = 0
          · simp [ht, Exec.client]
          · simp [ht, Exec.client, SplashClient.print]
      rw [if_neg h2, if_neg h2]
      by_cases h3 : type = some "phase_start"
      · subst h3; simp [updatePhase, Exec.client, updateProgress]
      rw [if_neg h3, if_neg h3]
      by_cases h4 : type = some "phase_complete"
      · subst h4
        have := addLog_phases c
        simp [completePhase, this]
      rw [if_neg h4]
      by_cases h5 : type = some "log"
      · subst h5
        have := addLog_phases c (some d)
        simp [this]
      rw [if_neg h5]
      by_cases h6 : type = some "dashboard_ready"
      · subst h6
        have := showSuccess_phases c d
        simp [this]
      rw [if_neg h6, if_neg h6]
      by_cases h7 : type = some "error"
      · subst h7; simp [showError_ok, Exec.client]
      rw [if_neg h7]
      exact ⟨rfl, rfl⟩

theorem step_phases (c : SplashClient) (s : Signal) :
    (step c s).client.totalPhases = nextTotal c.totalPhases s ∧
    (step c s).client.currentPhase = nextCurrent c.currentPhase c.totalPhases s := by
  cases s with
  | wsOpen => exact ⟨rfl, rfl⟩
  | wsMessage frame =>
    cases frame with
    | invalid => exact ⟨rfl, rfl⟩
    | value v =>
      obtain ⟨c1, h, h1, h2⟩ := onmessage_client c v
      have hp := handleEvent_phases c v
      simp only [step, h, Exec.client]
      exact ⟨h1.trans hp.1, h2.trans hp.2⟩
  | wsError => exact ⟨rfl, rfl⟩
  | wsClose =>
    by_cases h : c.reconnectAttempts < c.maxReconnectAttempts
    · simp only [step, onclose_retry c h]; exact ⟨rfl, rfl⟩
    · simp only [step, onclose_giveup c h]; exact ⟨rfl, rfl⟩
  | timeout t => cases t <;> exact ⟨rfl, rfl⟩

theorem run_totalPhases (signals : List Signal) (c : SplashClient) :
    (run c signals).totalPhases = signals.foldl nextTotal c.totalPhases := by
  induction signals generalizing c with
  | nil => rfl
  | cons s rest ih =>
    rw [run_cons, ih, (step_phases c s).1]
    rfl

theorem updatePhase_percent (c : SplashClient) (p : Int) (title : Option String) :
    ∃ c1, handleEvent c (.envelope (some "phase_start")
        (some { phase_num := some p, title := title })) = .ok c1 ∧
      c1.currentPhase = some p ∧
      c1.totalPhases = c.totalPhases ∧
      c1.progressPercentText =
        (mathRound (jsMulConst (jsDiv (some p) c.totalPhases) 100)).toStr ++ "%" ∧
      c1.progressBarWidth =
        (if (mathRound (jsMulConst (jsDiv (some p) c.totalPhases) 100)).validWidth
          then (mathRound (jsMulConst (jsDiv (some p) c.totalPhases) 100)).toStr ++ "%"
          else c.progressBarWidth) := by
  have hev : handleEvent c (.envelope (some "phase_start")
      (some { phase_num := some p, title := title }))
      = updatePhase c (some { phase_num := some p, title := title }) := by
    simp [handleEvent]
  rw [hev]
  exact ⟨_, rfl, rfl, rfl, rfl, rfl⟩

/-- The percent of a non-negative phase out of a positive total is a valid width. -/
theorem percent_validWidth (p t : Int) (hp : 0 ≤ p) (ht : 0 < t) :
    (mathRound (jsMulConst (jsDiv (some p) t) 100)).validWidth = true := by
  have hround : ∀ (m : Nat) (e : Int), (mathRound (.finite false m e)).validWidth = true := by
    intro m e
    by_cases he : 0 ≤ e
    · have h : mathRound (.finite false m e) = .int (1 * ((m : Int) * 2 ^ e.toNat)) := by
        simp [mathRound, he]
      rw [h]
      simp only [Rounded.validWidth, decide_eq_true_eq]
      positivity
    · have h : mathRound (.finite false m e)
          = .int ((2 * (1 * (m : Int)) + 2 ^ (-e).toNat) / (2 * 2 ^ (-e).toNat)) := by
        simp [mathRound, he]
      rw [h]
      simp only [Rounded.validWidth, decide_eq_true_eq]
      apply Int.ediv_nonneg <;> positivity
  have hmul : ∀ (m : Nat) (e : Int), ∃ m1 e1,
      jsMulConst (.finite false m e) 100 = .finite false m1 e1 := by
    intro m e
    simp only [jsMulConst]
    split_ifs <;> exact ⟨_, _, rfl⟩
  have hdiv : ∃ m e, jsDiv (some p) t = .finite false m e := by
    have ht0 : t ≠ 0 := by omega
    have htn : ¬ t < 0 := by omega
    simp only [jsDiv]
    rw [if_neg ht0]
    by_cases hp0 : p = 0
    · rw [if_pos hp0]; exact ⟨0, 0, by simp [htn]⟩
    · have hpn : ¬ p < 0 := by omega
      rw [if_neg hp0]
      refine ⟨(roundBinary64 p.natAbs t.natAbs).1, (roundBinary64 p.natAbs t.natAbs).2, ?_⟩
      simp [htn, hpn]
  obtain ⟨m, e, h1⟩ := hdiv
  obtain ⟨m1, e1, h2⟩ := hmul m e
  rw [h1, h2]
  exact hround m1 e1

/-- For fewer than 40 phases the double-precision percent is the exact one. -/
theorem percent_exact_small :
    ∀ t : Fin 40, ∀ p : Fin 40, 0 < t.val → p.val ≤ t.val →
      mathRound (jsMulConst (jsDiv (some (p.val : Int)) (t.val : Int)) 100)
        = .int (exactPercent p.val t.val) := by
  decide!

/-- C6 (amended). For every phase_start event with phase_num p handled in a reachable
state, the percent written to the label of the progress bar is Math.round of the
double-precision value of (p / t) * 100, printed as JavaScript prints a number, where t,
the totalPhases of that state, is the value of the most recent config event that
supplied a non-zero total_phases (a supplied 0 is ignored), or the default 8 if none
did; the percent is computed afresh from the current totalPhases on every update.  The
width of the bar is set to the same percentage when that is a valid width, which it is
whenever p >= 0 and t > 0; a negative, NaN or infinite percentage is ignored by the page
and the bar keeps the width it had.  For 0 < t < 40 and 0 <= p <= t the percent is the
integer nearest to 100 p / t, ties toward plus infinity. -/
theorem percent_from_configured_total (signals : List Signal) (p : Int)
    (title : Option String) :
    (run SplashClient.fresh signals).totalPhases = configuredTotal signals ∧
    ∃ c1, handleEvent (run SplashClient.fresh signals) (.envelope (some "phase_start")
        (some { phase_num := some p, title := title })) = .ok c1 ∧
      c1.currentPhase = some p ∧
      c1.progressPercentText =
        (mathRound (jsMulConst (jsDiv (some p) (configuredTotal signals)) 100)).toStr ++ "%" ∧
      c1.progressBarWidth =
        (if (mathRound (jsMulConst (jsDiv (some p) (configuredTotal signals)) 100)).validWidth
          then c1.progressPercentText
          else (run SplashClient.fresh signals).progressBarWidth) ∧
      (0 ≤ p → 0 < configuredTotal signals → c1.progressBarWidth = c1.progressPercentText) ∧
      (∀ t q : Fin 40, 0 < t.val → q.val ≤ t.val →
        mathRound (jsMulConst (jsDiv (some (q.val : Int)) (t.val : Int)) 100)
          = .int (exactPercent q.val t.val)) := by
  have ht : (run SplashClient.fresh signals).totalPhases = configuredTotal signals :=
    run_totalPhases signals SplashClient.fresh
  obtain ⟨c1, h1, h2, _, h4, h5⟩ := updatePhase_percent (run SplashClient.fresh signals) p title
  rw [ht] at h4 h5
  refine ⟨ht, c1, h1, h2, h4, ?_, ?_, percent_exact_small⟩
  · rw [h5, h4]
  · intro hp hpos
    rw [h5, h4, if_pos (percent_validWidth p _ hp hpos)]

/-- C6 (amended) on the two examples of the claim and on a negative phase: after
config{total_phases: 5}, phase_start{phase_num: 3} writes 60% to the label and to the
bar; with no config it writes 38%; and phase_start{phase_num: -2} on the fresh page
writes -25% to the label while the bar keeps its initial width. -/
theorem percent_from_configured_total_witness :
    (∃ c1, handleEvent (run SplashClient.fresh [configMsg (some 5)]) (.envelope (some "phase_start")
        (some { phase_num := some 3, title := some "Load" })) = .ok c1 ∧
      c1.progressPercentText = "60%" ∧ c1.progressBarWidth = "60%") ∧
    (∃ c1, handleEvent (run SplashClient.fresh []) (.envelope (some "phase_start")
        (some { phase_num := some 3, title := some "Load" })) = .ok c1 ∧
      c1.progressPercentText = "38%" ∧ c1.progressBarWidth = "38%") ∧
    (∃ c1, handleEvent (run SplashClient.fresh []) (.envelope (some "phase_start")
        (some { phase_num := some (-2), title := some "Load" })) = .ok c1 ∧
      c1.progressPercentText = "-25%" ∧ c1.progressBarWidth = "") := by
  obtain ⟨_, c1, h1, _, h3, _, h5, _⟩ :=
    percent_from_configured_total [configMsg (some 5)] 3 (some "Load")
  obtain ⟨_, c2, k1, _, k3, _, k5, _⟩ := percent_from_configured_total [] 3 (some "Load")
  obtain ⟨_, c3, l1, _, l3, l4, _⟩ := percent_from_configured_total [] (-2) (some "Load")
  have e1 : c1.progressPercentText = "60%" := by rw [h3]; decide
  have e2 : c2.progressPercentText = "38%" := by rw [k3]; decide
  refine ⟨⟨c1, h1, e1, ?_⟩, ⟨c2, k1, e2, ?_⟩, ⟨c3, l1, by rw [l3]; decide, ?_⟩⟩
  · rw [h5 (by decide) (by decide), e1]
  · rw [k5 (by decide) (by decide), e2]
  · rw [l4, if_neg (by decide)]
    rfl

/-- C6 as stated fails twice.  A config event that supplies total_phases 0 is the most
recent one to supply a value, yet totalPhases stays 8 and phase 3 is shown as 38%.  And
with 40 phases configured, phase 23 is shown as 57%, whereas the nearest integer to
23 / 40 * 100 = 57.5 with ties toward plus infinity is 58: the quotient 23 / 40 is not a
binary fraction and its double times 100 falls just below 57.5. -/
theorem percent_differs_from_claim :
    suppliedTotal [configMsg (some 0)] = 0 ∧
    (run SplashClient.fresh [configMsg (some 0)]).totalPhases = 8 ∧
    (run SplashClient.fresh [configMsg (some 0), phaseStartMsg 3 "Load"]).progressPercentText = "38%" ∧
    (run SplashClient.fresh [configMsg (some 40), phaseStartMsg 23 "Load"]).totalPhases = 40 ∧
    (run SplashClient.fresh [configMsg (some 40), phaseStartMsg 23 "Load"]).progressPercentText
      = "57%" ∧
    exactPercent 23 40 = 58 := by
  decide

theorem nextTotal_pos (t : Int) (s : Signal) (ht : 1 ≤ t) (hs : nonNegFields s = true) :
    1 ≤ nextTotal t s := by
  unfold nextTotal
  split
  · next type d =>
    unfold nonNegFields at hs
    simp only at hs
    split_ifs with h1
    · rw [if_pos h1] at hs
      split
      · next v hv =>
        rw [hv] at hs
        simp only [decide_eq_true_eq] at hs
        split_ifs with h0
        · omega
        · exact ht
      · exact ht
    · exact ht
  · exact ht

theorem nextCurrent_nonneg (cur : Option Int) (t : Int) (s : Signal) (ht : 1 ≤ t)
    (hc : ∃ p, cur = some p ∧ 0 ≤ p) (hs : nonNegFields s = true) :
    ∃ p, nextCurrent cur t s = some p ∧ 0 ≤ p := by
  unfold nextCurrent
  split
  · next type d =>
    unfold nonNegFields at hs
    simp only at hs
    split_ifs with h1 h2
    · have hne : type ≠ some "config" := by rw [h1]; decide
      rw [if_neg hne, if_pos h1] at hs
      cases hp : d.phase_num with
      | none => rw [hp] at hs; exact absurd hs (by decide)
      | some p =>
        rw [hp] at hs
        exact ⟨p, rfl, by simpa using hs⟩
    · exact ⟨t, rfl, by omega⟩
    · exact hc
  · exact hc

/-- C10 (amended). In every state reachable from the initial state (currentPhase 0,
totalPhases 8) by any sequence of events, totalPhases is never 0, so the percent
computation never divides by zero: a config event overwrites totalPhases exactly when it
supplies a non-zero total_phases, and leaves it alone when it supplies 0 or nothing.  If
moreover every total_phases supplied and every phase_num is a non-negative integer, then
currentPhase >= 0 and totalPhases >= 1 hold. -/
theorem total_phases_never_zero (signals : List Signal) (c : SplashClient) (t : Int) :
    SplashClient.fresh.currentPhase = some 0 ∧ SplashClient.fresh.totalPhases = 8 ∧
    (run SplashClient.fresh signals).totalPhases ≠ 0 ∧
    (step c (configMsg (some t))).client.totalPhases = (if t ≠ 0 then t else c.totalPhases) ∧
    (step c (configMsg none)).client.totalPhases = c.totalPhases ∧
    ((∀ s ∈ signals, nonNegFields s = true) →
      1 ≤ (run SplashClient.fresh signals).totalPhases ∧
      ∃ p, (run SplashClient.fresh signals).currentPhase = some p ∧ 0 ≤ p) := by
  refine ⟨rfl, rfl, (invariant_run signals SplashClient.fresh invariant_fresh).2.2.1, ?_, ?_, ?_⟩
  · rw [(step_phases c _).1]; simp [nextTotal, configMsg]
  · rw [(step_phases c _).1]; simp [nextTotal, configMsg]
  · have key : ∀ (sigs : List Signal) (c0 : SplashClient), 1 ≤ c0.totalPhases →
        (∃ p, c0.currentPhase = some p ∧ 0 ≤ p) → (∀ s ∈ sigs, nonNegFields s = true) →
        1 ≤ (run c0 sigs).totalPhases ∧ ∃ p, (run c0 sigs).currentPhase = some p ∧ 0 ≤ p := by
      intro sigs
      induction sigs with
      | nil => intro c0 h1 h2 _; exact ⟨h1, h2⟩
      | cons s rest ih =>
        intro c0 h1 h2 hs
        have hs0 : nonNegFields s = true := hs s (by simp)
        have hrest : ∀ x ∈ rest, nonNegFields x = true := fun x hx => hs x (by simp [hx])
        rw [run_cons]
        apply ih _ _ _ hrest
        · rw [(step_phases c0 s).1]; exact nextTotal_pos _ s h1 hs0
        · rw [(step_phases c0 s).2]; exact nextCurrent_nonneg _ _ s h1 h2 hs0
    intro hs
    exact key signals SplashClient.fresh (by decide) ⟨0, rfl, le_refl _⟩ hs

/-- C10 (amended) on a run with non-negative fields: config{total_phases: 0},
config{total_phases: 5}, phase_start{phase_num: 2}. -/
theorem total_phases_never_zero_witness :
    1 ≤ (run SplashClient.fresh
      [configMsg (some 0), configMsg (some 5), phaseStartMsg 2 "Load"]).totalPhases ∧
    ∃ p, (run SplashClient.fresh
      [configMsg (some 0), configMsg (some 5), phaseStartMsg 2 "Load"]).currentPhase = some p ∧
      0 ≤ p :=
  (total_phases_never_zero [configMsg (some 0), configMsg (some 5), phaseStartMsg 2 "Load"]
    SplashClient.fresh 0).2.2.2.2.2 (by decide)

/-- C10 as stated fails: the fields may be negative integers.  After
config{total_phases: -1} totalPhases is -1, below 1, and after phase_start{phase_num: -2}
currentPhase is -2, below 0; and a config event that supplies total_phases 0 does not
overwrite totalPhases. -/
theorem negative_fields_break_bounds :
    (run SplashClient.fresh [configMsg (some (-1))]).totalPhases = -1 ∧
    (run SplashClient.fresh [phaseStartMsg (-2) "Load"]).currentPhase = some (-2) ∧
    (run SplashClient.fresh [configMsg (some 0)]).totalPhases = 8 := by
  decide

end Splash
